import Mathlib

/-!
Verification of the Sort Resort greedy level solver and reverse-play level
constructor (`SortResort/level_solver.py`, `SortResort/reverse_generator.py`).

The Python code is shallowly embedded: containers and game states become
structures over `List`, in-place mutation becomes explicit state passing,
Python `int` becomes `Int`/`Nat` (Python integers are unbounded, so no
wrap-around modelling is needed), and item identifiers become `String`.
Definitions keep the snake_case names of the source where possible.
-/

namespace SortResort

/-- Item-type identifiers (Python strings). -/
abbrev Item := String

/-- `ContainerState` from level_solver.py: `slots[slot_idx][row_idx] = item_id or None`. -/
structure ContainerState where
  id : String
  slot_count : Nat
  max_rows : Nat
  is_locked : Bool
  unlock_matches_required : Int
  current_unlock_progress : Nat
  slots : List (List (Option Item))
  deriving DecidableEq, Repr

instance : Inhabited ContainerState := ⟨⟨"", 0, 0, false, 0, 0, []⟩⟩

namespace ContainerState

/-- Read cell `slots[s][r]`; out-of-range reads give `none` (the Python code
only indexes in range on the states it builds). -/
def cell (c : ContainerState) (s r : Nat) : Option Item :=
  (c.slots.getD s []).getD r none

/-- `get_front_item`: `slots[slot_idx][0]` with a bounds check returning `None`. -/
def get_front_item (c : ContainerState) (slot_idx : Nat) : Option Item :=
  c.cell slot_idx 0

/-- `is_front_slot_empty`. -/
def is_front_slot_empty (c : ContainerState) (slot_idx : Nat) : Bool :=
  (c.get_front_item slot_idx).isNone

/-- `get_empty_front_slot_count`: count of `s in range(slot_count)` with empty front. -/
def get_empty_front_slot_count (c : ContainerState) : Nat :=
  (List.range c.slot_count).countP (fun s => c.is_front_slot_empty s)

/-- `get_front_row_items`: the non-`None` front cells, in slot order. -/
def get_front_row_items (c : ContainerState) : List Item :=
  (List.range c.slot_count).filterMap (fun s => c.cell s 0)

/-- `has_back_row_items`: some row `>= 1` of some slot is occupied
(the Python iterates over the actual `slots` lists). -/
def has_back_row_items (c : ContainerState) : Bool :=
  c.slots.any (fun sl => (sl.drop 1).any (fun it => it.isSome))

/-- `get_back_row_item_count`. -/
def get_back_row_item_count (c : ContainerState) : Nat :=
  (c.slots.map (fun sl => (sl.drop 1).countP (fun it => it.isSome))).sum

/-- `get_back_row_item_types`: all items in rows `>= 1`, slot-major order. -/
def get_back_row_item_types (c : ContainerState) : List Item :=
  c.slots.flatMap (fun sl => (sl.drop 1).filterMap (fun it => it))

/-- `is_empty`: every cell of every slot is `None`. -/
def is_empty (c : ContainerState) : Bool :=
  c.slots.all (fun sl => sl.all (fun it => it.isNone))

/-- `get_total_item_count`. -/
def get_total_item_count (c : ContainerState) : Nat :=
  (c.slots.map (fun sl => sl.countP (fun it => it.isSome))).sum

end ContainerState

/-- `GameState` from level_solver.py. -/
structure GameState where
  containers : List ContainerState
  move_count : Nat
  match_count : Nat
  deriving DecidableEq, Repr

namespace GameState

/-- Container at index `i` (Python indexes a list; `default` out of range). -/
def getC (st : GameState) (i : Nat) : ContainerState :=
  st.containers.getD i default

/-- Replace container `i`. -/
def setC (st : GameState) (i : Nat) (c : ContainerState) : GameState :=
  { st with containers := st.containers.set i c }

/-- `get_total_item_count`. -/
def get_total_item_count (st : GameState) : Nat :=
  (st.containers.map (fun c => c.get_total_item_count)).sum

/-- `is_complete`: no items remain. -/
def is_complete (st : GameState) : Bool :=
  st.get_total_item_count = 0

end GameState

/-- `Move` from level_solver.py (`score`/`reason` are diagnostic). -/
structure Move where
  from_container : Nat
  from_slot : Nat
  to_container : Nat
  to_slot : Nat
  item_id : Item
  score : Int
  reason : String
  deriving DecidableEq, Repr

/-- `Move(...)` with the dataclass defaults `score=0, reason=""`. -/
def Move.mk' (fc fs tc ts : Nat) (it : Item) : Move :=
  ⟨fc, fs, tc, ts, it, 0, ""⟩

/-- `SolveResult` (the wall-clock `solve_time_ms` field is not modelled). -/
structure SolveResult where
  success : Bool
  total_moves : Nat
  total_matches : Nat
  move_sequence : List Move
  failure_reason : String
  deriving DecidableEq, Repr

/-- `SolverStrategy`. The weights are IEEE doubles applied only in
`int(contrib * (weight - 1.0))`; those three truncated products are kept
abstract as integer-valued functions of the contribution subtotal (for the
baseline weight `1.0` the product is exactly `0.0`, so the function is `fun _ => 0`).
`noise_magnitude` is a Python int, non-negative at every call site. -/
structure SolverStrategy where
  name : String
  pairAdjust : Int → Int
  revealAdjust : Int → Int
  cautionAdjust : Int → Int
  noise_magnitude : Nat

/-- `MAX_MOVES = 500`. -/
def MAX_MOVES : Nat := 500

/-- `PATTERN_WINDOW = 10`. -/
def PATTERN_WINDOW : Nat := 10

/-- Index (counting from `start`) of the first occupied cell in `rest`;
models the Python scan `for r in range(1, len(slot)): if slot[r] is not None: ...`
when called as `firstBackIdx (slot.drop 1) 1`. -/
def firstBackIdx : List (Option Item) → Nat → Option Nat
  | [], _ => none
  | x :: xs, r => if x.isSome then some r else firstBackIdx xs (r + 1)

/-- One slot of `_check_and_advance_rows`: if some row `>= 1` is occupied
(`first_non_null > 0`), shift the slot so that row becomes row 0.  The Python
loop writes `slot[r - f] = slot[r]` for `r in [f, len)` and then `None` at `r`;
since the guard in `_check_and_advance_rows` ensures row 0 is `None` and `f` is
the first occupied row, the net effect is `slot.drop f ++ replicate f None`. -/
def advanceSlot (sl : List (Option Item)) : List (Option Item) :=
  match firstBackIdx (sl.drop 1) 1 with
  | none => sl
  | some f => sl.drop f ++ List.replicate f none

/-- `_check_and_advance_rows`: if all front slots (`s in range(slot_count)`) are
empty and back items exist, advance every slot `s < slot_count` forward. -/
def ContainerState.check_and_advance_rows (c : ContainerState) : ContainerState :=
  if !((List.range c.slot_count).all (fun s => c.is_front_slot_empty s)) then c
  else if !c.has_back_row_items then c
  else { c with slots := c.slots.mapIdx (fun s sl =>
          if s < c.slot_count then advanceSlot sl else sl) }

/-- Write cell `slots[s][0] := v` (row `r`) of one container. -/
def ContainerState.setCell (c : ContainerState) (s r : Nat) (v : Option Item) : ContainerState :=
  { c with slots := c.slots.set s ((c.slots.getD s []).set r v) }

/-- `_execute_move`: remove from source front, place at destination front,
increment `move_count`, then check-advance the source container.  Mutation of
the two (possibly equal) container objects is modelled by sequential updates. -/
def executeMove (st : GameState) (m : Move) : GameState :=
  let st1 := st.setC m.from_container ((st.getC m.from_container).setCell m.from_slot 0 none)
  let st2 := st1.setC m.to_container ((st1.getC m.to_container).setCell m.to_slot 0 (some m.item_id))
  let st3 := { st2 with move_count := st2.move_count + 1 }
  st3.setC m.from_container ((st3.getC m.from_container).check_and_advance_rows)

/-- The per-container unlock bookkeeping of `_process_container_match`: every
locked container gains one unit of progress and unlocks once
`current_unlock_progress >= unlock_matches_required`. -/
def unlockStep (c : ContainerState) : ContainerState :=
  if c.is_locked then
    let p := c.current_unlock_progress + 1
    { c with current_unlock_progress := p,
             is_locked := decide ((p : Int) < c.unlock_matches_required) }
  else c

/-- The front row of a container as read by `_process_container_match`:
`[container.get_front_item(s) for s in range(container.slot_count)]`. -/
def matchFront (c : ContainerState) : List (Option Item) :=
  (List.range c.slot_count).map (fun s => c.get_front_item s)

/-- The front-row clearing loop of `_process_container_match`:
`for s in range(slot_count): container.slots[s][0] = None`. -/
def clearFrontRow (c : ContainerState) : ContainerState :=
  { c with slots := c.slots.mapIdx (fun s sl =>
      if s < c.slot_count then sl.set 0 none else sl) }

/-- `state.match_count += 1` followed by the unlock-progress loop of
`_process_container_match` (the loop leaves `match_count` alone, so the two
steps are one record update). -/
def bumpAndUnlock (st : GameState) : GameState :=
  { st with match_count := st.match_count + 1,
            containers := st.containers.map unlockStep }

/-- The mutation performed by `_process_container_match` once both guards
pass: clear the front row of container `i`, bump `match_count`, run the
unlock loop, then check-advance container `i`. -/
def pcmApply (st : GameState) (i : Nat) : GameState :=
  let st3 := bumpAndUnlock (st.setC i (clearFrontRow (st.getC i)))
  st3.setC i ((st3.getC i).check_and_advance_rows)

/-- `_process_container_match` on the container at index `i`: if the front row
is a complete single-type triple, clear it, bump `match_count`, advance unlock
progress of all locked containers, and check-advance the matched container. -/
def processContainerMatch (st : GameState) (i : Nat) : GameState × Bool :=
  if (matchFront (st.getC i)).any (fun f => f.isNone) then (st, false)
  else if (matchFront (st.getC i)).dedup.length ≠ 1 then (st, false)
  else (pcmApply st i, true)

lemma firstBackIdx_spec : ∀ (xs : List (Option Item)) (r f : Nat),
    firstBackIdx xs r = some f →
    r ≤ f ∧ (xs.take (f - r)).countP (fun it => it.isSome) = 0 := by
  intro xs
  induction xs with
  | nil => intro r f h; simp [firstBackIdx] at h
  | cons x xs ih =>
    intro r f h
    simp only [firstBackIdx] at h
    by_cases hx : x.isSome
    · simp only [hx, if_pos, Option.some.injEq] at h
      subst h
      simp
    · simp only [hx, Bool.false_eq_true, if_neg, if_false] at h
      obtain ⟨h1, h2⟩ := ih (r + 1) f h
      refine ⟨by omega, ?_⟩
      have hfr : f - r = (f - (r + 1)) + 1 := by omega
      rw [hfr, List.take_succ_cons, List.countP_cons]
      simp [hx, h2]

lemma countP_advanceSlot (sl : List (Option Item)) (h0 : sl.getD 0 none = none) :
    (advanceSlot sl).countP (fun it => it.isSome) = sl.countP (fun it => it.isSome) := by
  unfold advanceSlot
  cases hf : firstBackIdx (sl.drop 1) 1 with
  | none => rfl
  | some f =>
    obtain ⟨h1, h2⟩ := firstBackIdx_spec (sl.drop 1) 1 f hf
    have htake : (sl.take f).countP (fun it => it.isSome) = 0 := by
      cases sl with
      | nil => simp
      | cons a as =>
        simp only [List.getD_cons_zero] at h0
        subst h0
        obtain ⟨f', rfl⟩ : ∃ f', f = f' + 1 := ⟨f - 1, by omega⟩
        rw [List.take_succ_cons, List.countP_cons]
        have : f' + 1 - 1 = f' := by omega
        rw [this] at h2
        simp only [List.drop_one, List.tail_cons] at h2
        simp [h2]
    have hsplit : sl.countP (fun it => it.isSome)
        = (sl.take f).countP (fun it => it.isSome)
          + (sl.drop f).countP (fun it => it.isSome) := by
      rw [← List.countP_append, List.take_append_drop]
    rw [List.countP_append, hsplit, htake]
    simp [List.countP_eq_length_filter, List.filter_replicate]

lemma sum_map_mapIdx_eq {α : Type} (d : α) (g : α → Nat) :
    ∀ (f : Nat → α → α) (l : List α),
      (∀ i, i < l.length → g (f i (l.getD i d)) = g (l.getD i d)) →
      ((l.mapIdx f).map g).sum = (l.map g).sum := by
  intro f l
  induction l generalizing f with
  | nil => intro _; simp
  | cons x xs ih =>
    intro h
    rw [List.mapIdx_cons, List.map_cons, List.map_cons, List.sum_cons, List.sum_cons]
    have h0 := h 0 (by simp)
    simp only [List.getD_cons_zero] at h0
    rw [h0, ih (fun i a => f (i + 1) a) (fun i hi => by
      have := h (i + 1) (by simpa using hi)
      simpa using this)]

lemma sum_map_mapIdx_le {α : Type} (d : α) (g : α → Nat) :
    ∀ (f : Nat → α → α) (l : List α),
      (∀ i, i < l.length → g (f i (l.getD i d)) ≤ g (l.getD i d)) →
      ((l.mapIdx f).map g).sum ≤ (l.map g).sum := by
  intro f l
  induction l generalizing f with
  | nil => intro _; simp
  | cons x xs ih =>
    intro h
    rw [List.mapIdx_cons, List.map_cons, List.map_cons, List.sum_cons, List.sum_cons]
    have h0 := h 0 (by simp)
    simp only [List.getD_cons_zero] at h0
    have htail := ih (fun i => f (i + 1)) (fun i hi => by
      have := h (i + 1) (by simpa using hi)
      simpa using this)
    omega

lemma sum_map_mapIdx_lt {α : Type} (d : α) (g : α → Nat) (f : Nat → α → α) (l : List α)
    (hle : ∀ i, i < l.length → g (f i (l.getD i d)) ≤ g (l.getD i d))
    (h0 : g (f 0 (l.getD 0 d)) < g (l.getD 0 d)) (hl : 0 < l.length) :
    ((l.mapIdx f).map g).sum < (l.map g).sum := by
  cases l with
  | nil => simp at hl
  | cons x xs =>
    rw [List.mapIdx_cons, List.map_cons, List.map_cons, List.sum_cons, List.sum_cons]
    simp only [List.getD_cons_zero] at h0
    have htail := sum_map_mapIdx_le d g (fun i => f (i + 1)) xs (fun i hi => by
      have := hle (i + 1) (by simpa using hi)
      simpa using this)
    omega

lemma sum_map_set {α : Type} (d : α) (g : α → Nat) :
    ∀ (l : List α) (i : Nat), i < l.length →
      ∀ x, ((l.set i x).map g).sum + g (l.getD i d) = (l.map g).sum + g x := by
  intro l
  induction l with
  | nil => intro i hi; simp at hi
  | cons a as ih =>
    intro i hi x
    cases i with
    | zero => simp [List.set]; omega
    | succ j =>
      have hj : j < as.length := by simpa using hi
      have := ih j hj x
      simp only [List.set, List.map_cons, List.sum_cons, List.getD_cons_succ]
      omega

lemma countP_set0_none_le (sl : List (Option Item)) :
    (sl.set 0 none).countP (fun it => it.isSome) ≤ sl.countP (fun it => it.isSome) := by
  cases sl with
  | nil => simp
  | cons a as => simp [List.set, List.countP_cons]

lemma countP_set0_none_lt (sl : List (Option Item))
    (h : (sl.getD 0 none).isSome = true) :
    (sl.set 0 none).countP (fun it => it.isSome) < sl.countP (fun it => it.isSome) := by
  cases sl with
  | nil => simp at h
  | cons a as =>
    simp only [List.getD_cons_zero] at h
    simp [List.set, List.countP_cons, h]

lemma itemCount_check_and_advance (c : ContainerState) :
    c.check_and_advance_rows.get_total_item_count = c.get_total_item_count := by
  unfold ContainerState.check_and_advance_rows
  split
  · rfl
  · split
    · rfl
    · next hfront _ =>
      simp only [Bool.not_eq_true', Bool.not_eq_false] at hfront
      unfold ContainerState.get_total_item_count
      apply sum_map_mapIdx_eq
      intro i _
      split
      · next hi =>
        apply countP_advanceSlot
        have := List.all_eq_true.mp hfront i (List.mem_range.mpr hi)
        simpa [ContainerState.is_front_slot_empty, ContainerState.get_front_item,
          ContainerState.cell, Option.isNone_iff_eq_none] using this
      · rfl

lemma check_and_advance_fields (c : ContainerState) :
    c.check_and_advance_rows.is_locked = c.is_locked ∧
    c.check_and_advance_rows.slot_count = c.slot_count ∧
    c.check_and_advance_rows.current_unlock_progress = c.current_unlock_progress ∧
    c.check_and_advance_rows.unlock_matches_required = c.unlock_matches_required := by
  unfold ContainerState.check_and_advance_rows
  split
  · exact ⟨rfl, rfl, rfl, rfl⟩
  · split <;> exact ⟨rfl, rfl, rfl, rfl⟩

lemma itemCount_unlockStep (c : ContainerState) :
    (unlockStep c).get_total_item_count = c.get_total_item_count := by
  unfold unlockStep; split <;> rfl

lemma unlockStep_locked_mono (c : ContainerState) (h : c.is_locked = false) :
    unlockStep c = c := by
  unfold unlockStep; simp [h]

lemma getC_setC (st : GameState) (i j : Nat) (c : ContainerState) :
    (st.setC i c).getC j =
      if i = j ∧ i < st.containers.length then c else st.getC j := by
  unfold GameState.setC GameState.getC
  simp only [List.getD_eq_getElem?_getD]
  by_cases hij : i = j
  · subst hij
    by_cases hi : i < st.containers.length
    · simp [List.getElem?_set_eq_of_lt c hi, hi]
    · have hlen : (st.containers.set i c).length ≤ i := by
        simp only [List.length_set]; omega
      rw [List.getElem?_eq_none hlen]
      rw [List.getElem?_eq_none (by omega)]
      simp [hi]
  · simp [List.getElem?_set_ne hij, hij]

lemma count_setC (st : GameState) (i : Nat) (hi : i < st.containers.length)
    (c : ContainerState) :
    (st.setC i c).get_total_item_count + (st.getC i).get_total_item_count
      = st.get_total_item_count + c.get_total_item_count := by
  have := sum_map_set (default : ContainerState)
    (fun c => c.get_total_item_count) st.containers i hi c
  exact this

lemma count_bumpAndUnlock (st : GameState) :
    (bumpAndUnlock st).get_total_item_count = st.get_total_item_count := by
  unfold bumpAndUnlock GameState.get_total_item_count
  simp only [List.map_map]
  exact congrArg List.sum (List.map_congr_left (fun x _ => itemCount_unlockStep x))

lemma count_clearFrontRow_lt (c : ContainerState)
    (hFront : ((c.slots.getD 0 []).getD 0 none).isSome = true)
    (hsc : 0 < c.slot_count) (hlen : 0 < c.slots.length) :
    (clearFrontRow c).get_total_item_count < c.get_total_item_count := by
  unfold clearFrontRow ContainerState.get_total_item_count
  apply sum_map_mapIdx_lt
  · intro s _
    split
    · exact countP_set0_none_le _
    · exact le_refl _
  · rw [if_pos hsc]
    exact countP_set0_none_lt _ hFront
  · exact hlen

/-- In the matching branch of `_process_container_match` the front-row facts
forced by the two guards. -/
lemma pcm_guard_facts (c : ContainerState)
    (hany : (matchFront c).any (fun f => f.isNone) = false)
    (hded : (matchFront c).dedup.length = 1) :
    (∀ s, s < c.slot_count → (c.get_front_item s).isSome = true) ∧
      0 < c.slot_count ∧ c.slot_count ≤ c.slots.length := by
  have hFront : ∀ s, s < c.slot_count → (c.get_front_item s).isSome = true := by
    intro s hs
    rw [matchFront, List.any_eq_false] at hany
    have := hany (c.get_front_item s)
      (List.mem_map.mpr ⟨s, List.mem_range.mpr hs, rfl⟩)
    cases hfi : c.get_front_item s <;> simp_all
  have hsc : 0 < c.slot_count := by
    rcases Nat.eq_zero_or_pos c.slot_count with h0 | h0
    · rw [matchFront, h0] at hded; simp at hded
    · exact h0
  refine ⟨hFront, hsc, ?_⟩
  by_contra hlt
  push_neg at hlt
  have hcell := hFront c.slots.length hlt
  have houter : c.slots.getD c.slots.length [] = [] := by
    rw [List.getD_eq_getElem?_getD, List.getElem?_eq_none (le_refl _)]
    rfl
  unfold ContainerState.get_front_item ContainerState.cell at hcell
  rw [houter] at hcell
  simp at hcell

lemma getC_lt_of_slot_pos (st : GameState) (i : Nat)
    (h : 0 < (st.getC i).slot_count) : i < st.containers.length := by
  by_contra hge
  push_neg at hge
  have hdef : st.getC i = default := by
    unfold GameState.getC
    rw [List.getD_eq_getElem?_getD, List.getElem?_eq_none hge]
    rfl
  rw [hdef] at h
  simp [default] at h

lemma pcmApply_count_lt (st : GameState) (i : Nat)
    (hany : (matchFront (st.getC i)).any (fun f => f.isNone) = false)
    (hded : (matchFront (st.getC i)).dedup.length = 1) :
    (pcmApply st i).get_total_item_count < st.get_total_item_count := by
  obtain ⟨hFront, hsc, hscLen⟩ := pcm_guard_facts (st.getC i) hany hded
  have hi : i < st.containers.length := getC_lt_of_slot_pos st i hsc
  have hclt : (clearFrontRow (st.getC i)).get_total_item_count
      < (st.getC i).get_total_item_count := by
    apply count_clearFrontRow_lt
    · exact hFront 0 hsc
    · exact hsc
    · omega
  have h1 := count_setC st i hi (clearFrontRow (st.getC i))
  simp only [pcmApply]
  set st3 := bumpAndUnlock (st.setC i (clearFrontRow (st.getC i))) with hst3
  have hlen3 : st3.containers.length = st.containers.length := by
    simp [hst3, bumpAndUnlock, GameState.setC, List.length_map, List.length_set]
  have h4 := count_setC st3 i (by omega) ((st3.getC i).check_and_advance_rows)
  rw [itemCount_check_and_advance] at h4
  have h3 : st3.get_total_item_count
      = (st.setC i (clearFrontRow (st.getC i))).get_total_item_count :=
    count_bumpAndUnlock _
  omega

lemma pcm_move_count (st : GameState) (i : Nat) :
    (processContainerMatch st i).1.move_count = st.move_count := by
  unfold processContainerMatch
  split
  · rfl
  · split <;> rfl

lemma pcm_length (st : GameState) (i : Nat) :
    (processContainerMatch st i).1.containers.length = st.containers.length := by
  unfold processContainerMatch
  split
  · rfl
  · split
    · rfl
    · simp [pcmApply, bumpAndUnlock, GameState.setC, List.length_set, List.length_map]

lemma pcm_false_eq (st : GameState) (i : Nat)
    (h : (processContainerMatch st i).2 = false) :
    (processContainerMatch st i).1 = st := by
  unfold processContainerMatch at h ⊢
  split at h
  · next h1 => rw [if_pos h1]
  · next h1 =>
    split at h
    · next h2 => rw [if_neg h1, if_pos h2]
    · simp at h

lemma pcm_true_count_lt (st : GameState) (i : Nat)
    (h : (processContainerMatch st i).2 = true) :
    (processContainerMatch st i).1.get_total_item_count < st.get_total_item_count := by
  unfold processContainerMatch at h ⊢
  split at h
  · simp at h
  · next h1 =>
    split at h
    · simp at h
    · next h2 =>
      rw [if_neg h1, if_neg h2]
      rw [Bool.not_eq_true] at h1
      rw [Decidable.not_not] at h2
      exact pcmApply_count_lt st i h1 h2

/-- The loop body of one pass, as folded by `processPass`. -/
def passStep (acc : GameState × Nat) (i : Nat) : GameState × Nat :=
  if (acc.1.getC i).slot_count < 3 then acc
  else ((processContainerMatch acc.1 i).1,
        acc.2 + if (processContainerMatch acc.1 i).2 then 1 else 0)

lemma passStep_spec (acc : GameState × Nat) (i : Nat) :
    ((passStep acc i).1.get_total_item_count ≤ acc.1.get_total_item_count) ∧
    (acc.2 < (passStep acc i).2 →
      (passStep acc i).1.get_total_item_count < acc.1.get_total_item_count) ∧
    (passStep acc i).1.move_count = acc.1.move_count ∧
    (passStep acc i).1.containers.length = acc.1.containers.length ∧
    acc.2 ≤ (passStep acc i).2 := by
  unfold passStep
  split
  · exact ⟨le_refl _, fun h => absurd h (lt_irrefl _), rfl, rfl, le_refl _⟩
  · cases hm : (processContainerMatch acc.1 i).2
    · have heq := pcm_false_eq acc.1 i hm
      rw [heq]
      simp
    · have hlt := pcm_true_count_lt acc.1 i hm
      refine ⟨le_of_lt hlt, fun _ => hlt,
        pcm_move_count acc.1 i, pcm_length acc.1 i, by simp⟩

lemma passFold_spec (idxs : List Nat) :
    ∀ (acc : GameState × Nat),
      ((idxs.foldl passStep acc).1.get_total_item_count ≤ acc.1.get_total_item_count) ∧
      (acc.2 < (idxs.foldl passStep acc).2 →
        (idxs.foldl passStep acc).1.get_total_item_count < acc.1.get_total_item_count) ∧
      (idxs.foldl passStep acc).1.move_count = acc.1.move_count ∧
      (idxs.foldl passStep acc).1.containers.length = acc.1.containers.length ∧
      acc.2 ≤ (idxs.foldl passStep acc).2 := by
  induction idxs with
  | nil => intro acc; exact ⟨le_refl _, fun h => absurd h (lt_irrefl _), rfl, rfl, le_refl _⟩
  | cons i rest ih =>
    intro acc
    rw [List.foldl_cons]
    obtain ⟨s1, s2, s3, s4, s5⟩ := passStep_spec acc i
    obtain ⟨r1, r2, r3, r4, r5⟩ := ih (passStep acc i)
    refine ⟨le_trans r1 s1, ?_, r3.trans s3, r4.trans s4, le_trans s5 r5⟩
    intro hlt
    rcases lt_or_le acc.2 (passStep acc i).2 with hc | hc
    · exact lt_of_le_of_lt r1 (s2 hc)
    · have : (passStep acc i).2 = acc.2 := le_antisymm hc s5
      rw [this] at r2
      exact lt_of_lt_of_le (r2 hlt) s1

/-- One pass of `_process_all_matches`: visit every container index in order,
skipping `slot_count < 3`, returning the updated state and the number of
matches processed during the pass. -/
def processPass (st : GameState) : GameState × Nat :=
  (List.range st.containers.length).foldl passStep (st, 0)

lemma processPass_found_lt (st : GameState) (h : 0 < (processPass st).2) :
    (processPass st).1.get_total_item_count < st.get_total_item_count :=
  (passFold_spec (List.range st.containers.length) (st, 0)).2.1 h

lemma processPass_move_count (st : GameState) :
    (processPass st).1.move_count = st.move_count :=
  (passFold_spec (List.range st.containers.length) (st, 0)).2.2.1

lemma processPass_length (st : GameState) :
    (processPass st).1.containers.length = st.containers.length :=
  (passFold_spec (List.range st.containers.length) (st, 0)).2.2.2.1

/-- `_process_all_matches`: repeat passes until a pass finds no match;
return the final state and the total number of matches processed.
Termination: every pass that finds a match strictly decreases the total
item count. -/
def processAllMatches (st : GameState) : GameState × Nat :=
  if h : 0 < (processPass st).2 then
    ((processAllMatches (processPass st).1).1,
      (processPass st).2 + (processAllMatches (processPass st).1).2)
  else ((processPass st).1, 0)
termination_by st.get_total_item_count
decreasing_by exact processPass_found_lt st h

theorem pam_move_count (st : GameState) :
    (processAllMatches st).1.move_count = st.move_count := by
  unfold processAllMatches
  split
  · next h =>
    have ih := pam_move_count (processPass st).1
    simpa [ih] using processPass_move_count st
  · exact processPass_move_count st
termination_by st.get_total_item_count
decreasing_by exact processPass_found_lt st ‹_›

theorem pam_length (st : GameState) :
    (processAllMatches st).1.containers.length = st.containers.length := by
  unfold processAllMatches
  split
  · next h =>
    have ih := pam_length (processPass st).1
    simpa [ih] using processPass_length st
  · exact processPass_length st
termination_by st.get_total_item_count
decreasing_by exact processPass_found_lt st ‹_›

lemma getD_map_fun (l : List ContainerState) (f : ContainerState → ContainerState)
    (j : Nat) :
    (l.map f).getD j default = if j < l.length then f (l.getD j default) else default := by
  by_cases hj : j < l.length
  · simp [List.getD_eq_getElem?_getD, List.getElem?_map, List.getElem?_eq_getElem hj, hj]
  · push_neg at hj
    rw [List.getD_eq_getElem?_getD, List.getElem?_eq_none (by simpa using hj)]
    simp [hj, Nat.not_lt.mpr hj]

lemma clearFrontRow_fields (c : ContainerState) :
    (clearFrontRow c).is_locked = c.is_locked ∧
    (clearFrontRow c).slot_count = c.slot_count ∧
    (clearFrontRow c).current_unlock_progress = c.current_unlock_progress ∧
    (clearFrontRow c).unlock_matches_required = c.unlock_matches_required :=
  ⟨rfl, rfl, rfl, rfl⟩

/-- Where each container ends up after the matching branch of
`_process_container_match` runs on index `i`. -/
lemma pcmApply_getC (st : GameState) (i j : Nat) :
    (pcmApply st i).getC j =
      if i = j ∧ i < st.containers.length then
        (unlockStep (clearFrontRow (st.getC i))).check_and_advance_rows
      else if j < st.containers.length then unlockStep (st.getC j)
      else st.getC j := by
  have hlen1 : (st.setC i (clearFrontRow (st.getC i))).containers.length
      = st.containers.length := by simp [GameState.setC]
  have hlen3 : (bumpAndUnlock (st.setC i (clearFrontRow (st.getC i)))).containers.length
      = st.containers.length := by simp [bumpAndUnlock, GameState.setC]
  have hst3getC : ∀ k, (bumpAndUnlock (st.setC i (clearFrontRow (st.getC i)))).getC k
      = if k < st.containers.length then
          (if i = k ∧ i < st.containers.length then unlockStep (clearFrontRow (st.getC i))
           else unlockStep (st.getC k))
        else st.getC k := by
    intro k
    show ((st.containers.set i (clearFrontRow (st.getC i))).map unlockStep).getD k default = _
    rw [getD_map_fun]
    rw [List.length_set]
    by_cases hk : k < st.containers.length
    · rw [if_pos hk, if_pos hk]
      by_cases hik : i = k
      · subst hik
        rw [if_pos ⟨rfl, hk⟩]
        congr 1
        have := getC_setC st i i (clearFrontRow (st.getC i))
        simpa [GameState.setC, GameState.getC, hk] using this
      · rw [if_neg (by tauto)]
        congr 1
        have := getC_setC st i k (clearFrontRow (st.getC i))
        simpa [GameState.setC, GameState.getC, hik] using this
    · rw [if_neg hk, if_neg hk]
      have hk2 : st.containers.length ≤ k := Nat.le_of_not_lt hk
      show default = st.getC k
      unfold GameState.getC
      rw [List.getD_eq_getElem?_getD, List.getElem?_eq_none hk2]
      rfl
  unfold pcmApply
  rw [getC_setC]
  rw [hlen3]
  by_cases hij : i = j ∧ i < st.containers.length
  · rw [if_pos hij, if_pos hij]
    rw [hst3getC i]
    obtain ⟨rfl, hi⟩ := hij
    rw [if_pos hi, if_pos ⟨rfl, hi⟩]
  · rw [if_neg hij, hst3getC j]
    by_cases hj : j < st.containers.length
    · rw [if_pos hj, if_pos hj]
      have hthis : ¬(i = j ∧ i < st.containers.length) := hij
      rw [if_neg hthis, if_neg hthis]
    · rw [if_neg hj, if_neg hj, if_neg hij]

lemma unlockStep_fields (c : ContainerState) (h : c.is_locked = true) :
    (unlockStep c).current_unlock_progress = c.current_unlock_progress + 1 ∧
    ((unlockStep c).is_locked = true ↔
      ((c.current_unlock_progress + 1 : Int) < c.unlock_matches_required)) := by
  unfold unlockStep
  rw [if_pos h]
  constructor
  · rfl
  · simp

lemma pcm_locked_mono (st : GameState) (i j : Nat)
    (h : (st.getC j).is_locked = false) :
    (((processContainerMatch st i).1).getC j).is_locked = false := by
  unfold processContainerMatch
  split
  · exact h
  · split
    · exact h
    · show ((pcmApply st i).getC j).is_locked = false
      rw [pcmApply_getC]
      by_cases hij : i = j ∧ i < st.containers.length
      · rw [if_pos hij]
        obtain ⟨rfl, _⟩ := hij
        rw [(check_and_advance_fields _).1]
        rw [unlockStep_locked_mono _ (by rw [(clearFrontRow_fields _).1]; exact h)]
        rw [(clearFrontRow_fields _).1]
        exact h
      · rw [if_neg hij]
        by_cases hj : j < st.containers.length
        · rw [if_pos hj, unlockStep_locked_mono _ h]
          exact h
        · rw [if_neg hj]
          exact h

lemma passFold_locked (idxs : List Nat) :
    ∀ (acc : GameState × Nat) (j : Nat), ((acc.1.getC j).is_locked = false) →
      (((idxs.foldl passStep acc).1.getC j).is_locked = false) := by
  induction idxs with
  | nil => intro acc j h; exact h
  | cons i rest ih =>
    intro acc j h
    rw [List.foldl_cons]
    apply ih
    unfold passStep
    split
    · exact h
    · exact pcm_locked_mono acc.1 i j h

lemma processPass_locked (st : GameState) (j : Nat)
    (h : (st.getC j).is_locked = false) :
    ((processPass st).1.getC j).is_locked = false :=
  passFold_locked (List.range st.containers.length) (st, 0) j h

theorem pam_locked_mono (st : GameState) (j : Nat)
    (h : (st.getC j).is_locked = false) :
    ((processAllMatches st).1.getC j).is_locked = false := by
  unfold processAllMatches
  split
  · next hfound =>
    exact pam_locked_mono (processPass st).1 j (processPass_locked st j h)
  · exact processPass_locked st j h
termination_by st.get_total_item_count
decreasing_by exact processPass_found_lt st ‹_›

lemma getC_default_of_ge (st : GameState) (j : Nat)
    (h : st.containers.length ≤ j) : st.getC j = default := by
  unfold GameState.getC
  rw [List.getD_eq_getElem?_getD, List.getElem?_eq_none h]
  rfl

lemma dedup_length_one_iff {A : Type} [DecidableEq A] (l : List A) :
    l.dedup.length = 1 ↔ ∃ x, l ≠ [] ∧ ∀ a ∈ l, a = x := by
  constructor
  · intro h
    obtain ⟨x, hx⟩ := List.length_eq_one.mp h
    refine ⟨x, ?_, ?_⟩
    · intro hnil
      rw [hnil] at hx
      simp at hx
    · intro a ha
      have hm : a ∈ l.dedup := List.mem_dedup.mpr ha
      rw [hx] at hm
      simpa using hm
  · rintro ⟨x, hne, hall⟩
    have hmem : x ∈ l := by
      cases l with
      | nil => exact absurd rfl hne
      | cons b bs =>
        have := hall b (by simp)
        rw [← this]
        simp
    have hxd : x ∈ l.dedup := List.mem_dedup.mpr hmem
    have hnodup := l.nodup_dedup
    have hall2 : ∀ a ∈ l.dedup, a = x := fun a ha => hall a (List.mem_dedup.mp ha)
    cases hd : l.dedup with
    | nil =>
      rw [hd] at hxd
      simp at hxd
    | cons y ys =>
      rw [hd] at hall2 hnodup
      have hy : y = x := hall2 y (by simp)
      cases ys with
      | nil => simp
      | cons z zs =>
        have hz : z = x := hall2 z (by simp)
        rw [List.nodup_cons] at hnodup
        exact absurd (by rw [hy, ← hz]; exact List.mem_cons_self z zs) hnodup.1

lemma matchFront_get (c : ContainerState) (s : Nat) (hs : s < c.slot_count) :
    c.get_front_item s ∈ matchFront c :=
  List.mem_map.mpr ⟨s, List.mem_range.mpr hs, rfl⟩

/-- `_process_container_match` reports a match exactly when all front-row
cells of the container are occupied by one common item type. -/
lemma pcm_true_iff (st : GameState) (i : Nat) (hsc : 0 < (st.getC i).slot_count) :
    (processContainerMatch st i).2 = true ↔
      ∃ x, ∀ s, s < (st.getC i).slot_count →
        (st.getC i).get_front_item s = some x := by
  unfold processContainerMatch
  constructor
  · intro h
    split at h
    · simp at h
    · next hany =>
      split at h
      · simp at h
      · next hded =>
        rw [Bool.not_eq_true] at hany
        rw [Decidable.not_not] at hded
        obtain ⟨hFront, _, _⟩ := pcm_guard_facts _ hany hded
        obtain ⟨y, _, hall⟩ := (dedup_length_one_iff _).mp hded
        obtain ⟨x, hx⟩ := Option.isSome_iff_exists.mp (hFront 0 hsc)
        refine ⟨x, fun s hs => ?_⟩
        have h1 := hall _ (matchFront_get _ s hs)
        have h2 := hall _ (matchFront_get _ 0 hsc)
        rw [h1, ← h2, hx]
  · rintro ⟨x, hx⟩
    have hany : (matchFront (st.getC i)).any (fun f => f.isNone) = false := by
      rw [List.any_eq_false]
      intro a ha
      obtain ⟨s, hsm, heq⟩ := List.mem_map.mp ha
      rw [List.mem_range] at hsm
      rw [← heq, hx s hsm]
      simp
    have hded : (matchFront (st.getC i)).dedup.length = 1 := by
      rw [dedup_length_one_iff]
      refine ⟨some x, ?_, ?_⟩
      · have hm := matchFront_get (st.getC i) 0 hsc
        intro hnil
        rw [hnil] at hm
        simp at hm
      · intro a ha
        obtain ⟨s, hsm, heq⟩ := List.mem_map.mp ha
        rw [List.mem_range] at hsm
        rw [← heq, hx s hsm]
    rw [if_neg (by rw [hany]; simp), if_neg (by rw [hded]; simp)]

lemma pcm_true_guards (st : GameState) (i : Nat)
    (h : (processContainerMatch st i).2 = true) :
    (matchFront (st.getC i)).any (fun f => f.isNone) = false ∧
    (matchFront (st.getC i)).dedup.length = 1 ∧
    processContainerMatch st i = (pcmApply st i, true) := by
  unfold processContainerMatch at h ⊢
  split at h
  · simp at h
  · next h1 =>
    split at h
    · simp at h
    · next h2 =>
      rw [Bool.not_eq_true] at h1
      rw [Decidable.not_not] at h2
      exact ⟨h1, h2, by rw [if_neg (by rw [h1]; simp), if_neg (by rw [h2]; simp)]⟩

/-- C1: for every game state and container index `i` with `slot_count >= 3`,
`_process_container_match` reports a match exactly when all front-row cells of
that container are non-empty and hold one common item type; on a match it
increments `match_count` by 1, replaces the container by its front-cleared and
row-advanced form, increments `current_unlock_progress` of every locked
container by 1 (unlocking it once progress reaches `unlock_matches_required`),
and a container that is unlocked is never re-locked by match processing. -/
theorem sortresort_C1 (st : GameState) (i : Nat)
    (hsc : 3 ≤ (st.getC i).slot_count) :
    ((processContainerMatch st i).2 = true ↔
      ∃ x, ∀ s, s < (st.getC i).slot_count →
        (st.getC i).get_front_item s = some x) ∧
    ((processContainerMatch st i).2 = true →
      (processContainerMatch st i).1.match_count = st.match_count + 1 ∧
      ((processContainerMatch st i).1.getC i)
        = (unlockStep (clearFrontRow (st.getC i))).check_and_advance_rows ∧
      (∀ j, (st.getC j).is_locked = true →
        (((processContainerMatch st i).1.getC j).current_unlock_progress
            = (st.getC j).current_unlock_progress + 1) ∧
        (((processContainerMatch st i).1.getC j).is_locked = true ↔
          ((st.getC j).current_unlock_progress + 1 : Int)
            < (st.getC j).unlock_matches_required))) ∧
    (∀ j, (st.getC j).is_locked = false →
      ((processAllMatches st).1.getC j).is_locked = false) := by
  refine ⟨pcm_true_iff st i (by omega), ?_, fun j h => pam_locked_mono st j h⟩
  intro ht
  obtain ⟨hany, hded, heq⟩ := pcm_true_guards st i ht
  obtain ⟨hFront, hsc0, hscLen⟩ := pcm_guard_facts _ hany hded
  have hi : i < st.containers.length := getC_lt_of_slot_pos st i hsc0
  rw [heq]
  refine ⟨rfl, ?_, ?_⟩
  · show (pcmApply st i).getC i = _
    rw [pcmApply_getC, if_pos ⟨rfl, hi⟩]
  · intro j hj
    have hjlen : j < st.containers.length := by
      by_contra hge
      push_neg at hge
      rw [getC_default_of_ge st j hge] at hj
      exact Bool.noConfusion hj
    show ((pcmApply st i).getC j).current_unlock_progress = _ ∧ _
    rw [pcmApply_getC]
    by_cases hij : i = j
    · subst hij
      rw [if_pos ⟨rfl, hi⟩]
      have hlock2 : (clearFrontRow (st.getC i)).is_locked = true := by
        rw [(clearFrontRow_fields _).1]
        exact hj
      obtain ⟨hp, hl⟩ := unlockStep_fields _ hlock2
      constructor
      · rw [(check_and_advance_fields _).2.2.1, hp, (clearFrontRow_fields _).2.2.1]
      · rw [(check_and_advance_fields _).1, hl,
          (clearFrontRow_fields _).2.2.1, (clearFrontRow_fields _).2.2.2]
    · rw [if_neg (by tauto), if_pos hjlen]
      obtain ⟨hp, hl⟩ := unlockStep_fields _ hj
      exact ⟨hp, by rw [hl]⟩

/-- Concrete board for the C1 witness: container 0 is an unlocked 3-slot
container with a complete X-triple in front; container 1 is locked and needs
two matches. -/
def c1WitnessState : GameState :=
  { containers := [
      { id := "a", slot_count := 3, max_rows := 1, is_locked := false,
        unlock_matches_required := 0, current_unlock_progress := 0,
        slots := [[some "X"], [some "X"], [some "X"]] },
      { id := "b", slot_count := 1, max_rows := 1, is_locked := true,
        unlock_matches_required := 2, current_unlock_progress := 0,
        slots := [[some "Y"]] }],
    move_count := 0, match_count := 0 }

theorem sortresort_C1_witness :
    (3 ≤ (c1WitnessState.getC 0).slot_count) ∧
    (((processContainerMatch c1WitnessState 0).2 = true ↔
      ∃ x, ∀ s, s < (c1WitnessState.getC 0).slot_count →
        (c1WitnessState.getC 0).get_front_item s = some x) ∧
    ((processContainerMatch c1WitnessState 0).2 = true →
      (processContainerMatch c1WitnessState 0).1.match_count
          = c1WitnessState.match_count + 1 ∧
      ((processContainerMatch c1WitnessState 0).1.getC 0)
        = (unlockStep (clearFrontRow (c1WitnessState.getC 0))).check_and_advance_rows ∧
      (∀ j, (c1WitnessState.getC j).is_locked = true →
        (((processContainerMatch c1WitnessState 0).1.getC j).current_unlock_progress
            = (c1WitnessState.getC j).current_unlock_progress + 1) ∧
        (((processContainerMatch c1WitnessState 0).1.getC j).is_locked = true ↔
          ((c1WitnessState.getC j).current_unlock_progress + 1 : Int)
            < (c1WitnessState.getC j).unlock_matches_required))) ∧
    (∀ j, (c1WitnessState.getC j).is_locked = false →
      ((processAllMatches c1WitnessState).1.getC j).is_locked = false)) :=
  ⟨by decide, sortresort_C1 c1WitnessState 0 (by decide)⟩

/-- Unlocked-and-completely-empty test used by `_get_all_valid_moves`
(`empty_container_set` membership). -/
def isEmptyUnlockedAt (st : GameState) (ci : Nat) : Bool :=
  !(st.getC ci).is_locked && (st.getC ci).is_empty

/-- `empty_representatives[slot_count]`: the first unlocked, completely empty
container with the given `slot_count` (dict insertion order = container
order). -/
def emptyRepresentative (st : GameState) (sc : Nat) : Option Nat :=
  (List.range st.containers.length).find? (fun ci =>
    isEmptyUnlockedAt st ci && ((st.getC ci).slot_count == sc))

/-- The `first_empty` scan of `_get_all_valid_moves` (and the `empty_slot`
scan of `_find_one_move_match`): first front slot that is empty. -/
def firstEmptyFrontSlot (c : ContainerState) : Option Nat :=
  (List.range c.slot_count).find? (fun s => c.is_front_slot_empty s)

/-- The destination test of `_get_all_valid_moves` for one `to_ci`:
`continue` on same container or locked, `continue` on a non-representative
empty container, else emit a move into the first empty front slot. -/
def moveCandidate (st : GameState) (from_ci from_s to_ci : Nat) (item : Item) :
    Option Move :=
  if to_ci = from_ci ∨ (st.getC to_ci).is_locked = true then none
  else if isEmptyUnlockedAt st to_ci = true
      ∧ emptyRepresentative st ((st.getC to_ci).slot_count) ≠ some to_ci then none
  else match firstEmptyFrontSlot (st.getC to_ci) with
    | some fe => some (Move.mk' from_ci from_s to_ci fe item)
    | none => none

/-- `_get_all_valid_moves`. -/
def getAllValidMoves (st : GameState) : List Move :=
  (List.range st.containers.length).flatMap (fun from_ci =>
    if (st.getC from_ci).is_locked = true then []
    else (List.range (st.getC from_ci).slot_count).flatMap (fun from_s =>
      match (st.getC from_ci).get_front_item from_s with
      | none => []
      | some item =>
        (List.range st.containers.length).filterMap (fun to_ci =>
          moveCandidate st from_ci from_s to_ci item)))

/-- The legal-move predicate as the specification states it: the front item
of a slot of an unlocked container moves to the first empty front slot of a
different unlocked container, where completely empty destinations must be the
designated representative of their `slot_count`. -/
def ValidMoveSpec (st : GameState) (m : Move) : Prop :=
  m.from_container < st.containers.length ∧
  (st.getC m.from_container).is_locked = false ∧
  m.from_slot < (st.getC m.from_container).slot_count ∧
  (st.getC m.from_container).get_front_item m.from_slot = some m.item_id ∧
  m.to_container < st.containers.length ∧
  m.to_container ≠ m.from_container ∧
  (st.getC m.to_container).is_locked = false ∧
  (isEmptyUnlockedAt st m.to_container = true →
    emptyRepresentative st ((st.getC m.to_container).slot_count) = some m.to_container) ∧
  firstEmptyFrontSlot (st.getC m.to_container) = some m.to_slot ∧
  m.score = 0 ∧ m.reason = ""

lemma moveCandidate_eq_some_iff (st : GameState) (a b c : Nat) (it : Item) (m : Move) :
    moveCandidate st a b c it = some m ↔
      (c ≠ a ∧ (st.getC c).is_locked = false ∧
        (isEmptyUnlockedAt st c = true →
          emptyRepresentative st ((st.getC c).slot_count) = some c) ∧
        ∃ fe, firstEmptyFrontSlot (st.getC c) = some fe ∧ m = Move.mk' a b c fe it) := by
  unfold moveCandidate
  constructor
  · intro h
    split at h
    · simp at h
    · next h1 =>
      split at h
      · simp at h
      · next h2 =>
        push_neg at h1
        refine ⟨h1.1, by simpa using h1.2, ?_, ?_⟩
        · intro hempty
          by_contra hrep
          exact h2 ⟨hempty, hrep⟩
        · cases hfe : firstEmptyFrontSlot (st.getC c) with
          | none => rw [hfe] at h; simp at h
          | some fe =>
            rw [hfe] at h
            exact ⟨fe, rfl, by simpa using h.symm⟩
  · rintro ⟨h1, h2, h3, fe, hfe, rfl⟩
    rw [if_neg (by simp [h1, h2]), if_neg (by tauto), hfe]

lemma mem_getAllValidMoves_iff (st : GameState) (m : Move) :
    m ∈ getAllValidMoves st ↔ ValidMoveSpec st m := by
  unfold getAllValidMoves ValidMoveSpec
  rw [List.mem_flatMap]
  constructor
  · rintro ⟨from_ci, hfc, hm⟩
    rw [List.mem_range] at hfc
    split at hm
    · simp at hm
    · next hlock =>
      rw [List.mem_flatMap] at hm
      obtain ⟨from_s, hfs, hm2⟩ := hm
      rw [List.mem_range] at hfs
      cases hfi : (st.getC from_ci).get_front_item from_s with
      | none => rw [hfi] at hm2; simp at hm2
      | some item =>
        rw [hfi] at hm2
        rw [List.mem_filterMap] at hm2
        obtain ⟨to_ci, htc, hcand⟩ := hm2
        rw [List.mem_range] at htc
        obtain ⟨hne, hlock2, hrep, fe, hfe, rfl⟩ :=
          (moveCandidate_eq_some_iff st from_ci from_s to_ci item m).mp hcand
        exact ⟨hfc, by simpa using hlock, hfs, hfi, htc, hne, hlock2, hrep, hfe, rfl, rfl⟩
  · rintro ⟨h1, h2, h3, h4, h5, h6, h7, h8, h9, h10, h11⟩
    refine ⟨m.from_container, List.mem_range.mpr h1, ?_⟩
    rw [if_neg (by simp [h2])]
    rw [List.mem_flatMap]
    refine ⟨m.from_slot, List.mem_range.mpr h3, ?_⟩
    rw [h4]
    rw [List.mem_filterMap]
    refine ⟨m.to_container, List.mem_range.mpr h5, ?_⟩
    rw [moveCandidate_eq_some_iff]
    refine ⟨h6, h7, h8, m.to_slot, h9, ?_⟩
    cases m
    simp only [Move.mk'] at h10 h11 ⊢
    subst h10
    subst h11
    rfl

/-- `_get_items_that_would_advance`: for each slot the first occupied back
cell, in slot order. -/
def getItemsThatWouldAdvance (c : ContainerState) : List Item :=
  (List.range c.slot_count).filterMap
    (fun s => ((c.slots.getD s []).drop 1).findSome? (fun it => it))

/-- `_has_waiting_pair_for_item`: some unlocked, 3-or-more-slot container has
exactly two front copies of the item and at least one empty front slot. -/
def hasWaitingPairForItem (st : GameState) (item : Item) : Bool :=
  st.containers.any (fun c =>
    if c.is_locked = true ∨ c.slot_count < 3 then false
    else
      decide ((List.range c.slot_count).countP
          (fun s => c.get_front_item s == some item) = 2 ∧
        1 ≤ (List.range c.slot_count).countP
          (fun s => c.get_front_item s == (none : Option Item))))

/-- `_would_match`: some container with `slot_count >= 3` has a fully
occupied, single-type front row. -/
def wouldMatch (st : GameState) : Bool :=
  st.containers.any (fun c =>
    if c.slot_count < 3 then false
    else
      (matchFront c).all (fun f => f.isSome) &&
        ((matchFront c).dedup.length == 1))

/-- `_is_reversal_move`. -/
def isReversalMove (current previous : Move) : Bool :=
  current.item_id == previous.item_id &&
    current.from_container == previous.to_container &&
    current.to_container == previous.from_container

/-- The reveal-potential estimate computed for each candidate inside
`_find_one_move_match`: a source bonus when the move would trigger a row
advance at the source (`100 + 20·revealed`, plus `50` per revealed item with
a waiting pair), plus a destination bonus when the destination container has
hidden rows (`50 + 15·revealable`). -/
def oneMoveRevealScore (st : GameState) (ci oci : Nat) : Int :=
  let container := st.getC ci
  let other := st.getC oci
  let src : Int :=
    if ((List.range other.slot_count).countP
          (fun s2 => !(other.is_front_slot_empty s2))) = 1
        ∧ other.has_back_row_items = true then
      let revealed := getItemsThatWouldAdvance other
      100 + 20 * (revealed.length : Int) +
        50 * (revealed.countP (fun rev => hasWaitingPairForItem st rev) : Int)
    else 0
  let dst : Int :=
    if container.has_back_row_items = true then
      50 + 15 * ((getItemsThatWouldAdvance container).length : Int)
    else 0
  src + dst

/-- Python dict counting (`counts[item] = counts.get(item, 0) + 1`) with
insertion order preserved, as `.items()` iterates it. -/
def itemCounts (xs : List Item) : List (Item × Nat) :=
  xs.foldl (fun acc x =>
    if acc.any (fun p => p.1 == x) then
      acc.map (fun p => if p.1 == x then (p.1, p.2 + 1) else p)
    else acc ++ [(x, 1)]) []

/-- The candidate list built by `_find_one_move_match`, in construction
order, each with its reveal-potential estimate. -/
def oneMoveCandidates (st : GameState) : List (Int × Move) :=
  (List.range st.containers.length).flatMap (fun ci =>
    if (st.getC ci).is_locked = true ∨ (st.getC ci).slot_count < 3 then []
    else match firstEmptyFrontSlot (st.getC ci) with
    | none => []
    | some empty_slot =>
      if (st.getC ci).get_front_row_items.length < 2 then []
      else (itemCounts (st.getC ci).get_front_row_items).flatMap (fun tc =>
        if tc.2 < 2 then []
        else (List.range st.containers.length).flatMap (fun oci =>
          if oci = ci ∨ (st.getC oci).is_locked = true then []
          else (List.range (st.getC oci).slot_count).filterMap (fun os =>
            if (st.getC oci).get_front_item os = some tc.1 then
              some (oneMoveRevealScore st ci oci, Move.mk' oci os ci empty_slot tc.1)
            else none))))

/-- `candidates.sort(key=lambda x: -x[0])` followed by taking element `[0]`:
Python sort is stable, so this is the first element attaining the maximal
key. -/
def pickByScore {A : Type} (key : A → Int) : List A → Option A
  | [] => none
  | x :: xs => some (xs.foldl (fun best y => if key y > key best then y else best) x)

/-- `_find_one_move_match`: the best-scoring candidate, or `None`. -/
def findOneMoveMatch (st : GameState) : Option Move :=
  (pickByScore (fun p => p.1) (oneMoveCandidates st)).map (fun p => p.2)

lemma pickByScore_eq_none_iff {A : Type} (key : A → Int) (l : List A) :
    pickByScore key l = none ↔ l = [] := by
  cases l <;> simp [pickByScore]

lemma pickByScore_spec {A : Type} (key : A → Int) (l : List A) (hl : l ≠ []) :
    ∃ x, pickByScore key l = some x ∧ x ∈ l ∧ ∀ y ∈ l, key y ≤ key x := by
  cases l with
  | nil => exact absurd rfl hl
  | cons a as =>
    have main : ∀ (xs : List A) (x : A),
        (xs.foldl (fun best y => if key y > key best then y else best) x) = x ∨
          (xs.foldl (fun best y => if key y > key best then y else best) x) ∈ xs := by
      intro xs
      induction xs with
      | nil => intro x; left; rfl
      | cons b bs ih =>
        intro x
        rw [List.foldl_cons]
        rcases ih (if key b > key x then b else x) with h | h
        · rw [h]
          split
          · right; simp
          · left; rfl
        · right; simp [h]
    have maxx : ∀ (xs : List A) (x : A),
        key x ≤ key (xs.foldl (fun best y => if key y > key best then y else best) x) ∧
        ∀ y ∈ xs, key y ≤ key (xs.foldl (fun best y => if key y > key best then y else best) x) := by
      intro xs
      induction xs with
      | nil => intro x; exact ⟨le_refl _, by simp⟩
      | cons b bs ih =>
        intro x
        rw [List.foldl_cons]
        obtain ⟨ih1, ih2⟩ := ih (if key b > key x then b else x)
        constructor
        · refine le_trans ?_ ih1
          split <;> omega
        · intro y hy
          rcases List.mem_cons.mp hy with rfl | hy2
          · refine le_trans ?_ ih1
            split <;> omega
          · exact ih2 y hy2
    refine ⟨as.foldl (fun best y => if key y > key best then y else best) a, rfl, ?_, ?_⟩
    · rcases main as a with h | h
      · rw [h]; simp
      · simp [h]
    · intro y hy
      rcases List.mem_cons.mp hy with rfl | hy2
      · exact (maxx as y).1
      · exact (maxx as a).2 y hy2

/-- `near_unlock` membership in `_analyze_item_accessibility`. -/
def nearUnlockAt (st : GameState) (ci : Nat) : Bool :=
  (st.getC ci).is_locked &&
    decide ((st.getC ci).unlock_matches_required
      - ((st.getC ci).current_unlock_progress : Int) ≤ 2)

/-- `near_advance` membership in `_analyze_item_accessibility`. -/
def nearAdvanceAt (st : GameState) (ci : Nat) : Bool :=
  !(st.getC ci).is_locked &&
    decide ((List.range (st.getC ci).slot_count).countP
      (fun s => !((st.getC ci).is_front_slot_empty s)) ≤ 1) &&
    (st.getC ci).has_back_row_items

/-- `_analyze_item_accessibility`, read extensionally: the returned dict is
only consulted through `.get(item_id, (0, 0, 0))`, so it is modelled as the
function mapping an item type to its `(accessible, nearly_accessible, total)`
counts over all board cells (the dict holds exactly these counts and the
default matches an absent item). -/
def itemStatus (st : GameState) (item : Item) : Nat × Nat × Nat :=
  let occs := (List.range st.containers.length).flatMap (fun ci =>
    (List.range (st.getC ci).slot_count).flatMap (fun s =>
      (List.range ((st.getC ci).slots.getD s []).length).filterMap (fun r =>
        if (st.getC ci).cell s r = some item then some (ci, r) else none)))
  (occs.countP (fun p => p.2 == 0 && !(st.getC p.1).is_locked),
   occs.countP (fun p =>
     (p.2 == 0 && nearUnlockAt st p.1) || (p.2 == 1 && nearAdvanceAt st p.1)),
   occs.length)

/-- The three quantities examined by the deadlock-prevention block of
`_score_move_unified`: the match count from reprocessing after the simulated
move, the total number of empty front slots over non-locked containers in the
resulting state, and the number of locked containers within 2 matches of
unlocking there. -/
def deadlockStats (st : GameState) (m : Move) : Nat × Nat × Nat :=
  ((processAllMatches (executeMove st m)).2,
   ((processAllMatches (executeMove st m)).1.containers.map (fun c =>
      if c.is_locked = true then 0 else c.get_empty_front_slot_count)).sum,
   (processAllMatches (executeMove st m)).1.containers.countP (fun c =>
      c.is_locked = true ∧
        (c.unlock_matches_required - (c.current_unlock_progress : Int)) ≤ 2))

/-- The deadlock-prevention block of `_score_move_unified` (its contribution
is added to both `score` and `penalty_contrib`, with the listed reason). -/
def deadlockPenalty (st : GameState) (m : Move) : Int × List String :=
  let stats := deadlockStats st m
  if stats.1 = 0 then
    if stats.2.1 = 0 ∧ stats.2.2 = 0 then
      (-500, ["DEADLOCK: leaves 0 empty slots"])
    else if stats.2.1 = 0 ∧ 0 < stats.2.2 then
      (-150, ["tight board (unlocks coming)"])
    else if stats.2.1 = 1 ∧ stats.2.2 = 0 then
      (-100, ["near-deadlock: only 1 empty slot left"])
    else if stats.2.1 ≤ 2 ∧ stats.2.2 = 0 then
      (-30, ["low slots remaining"])
    else (0, [])
  else (0, [])

/-- `sum(1 for c2 in test_state.containers if not c2.is_locked for fi in
c2.get_front_row_items() if fi == item_type)`. -/
def frontCountAcross (st : GameState) (item : Item) : Nat :=
  (st.containers.map (fun c2 => if c2.is_locked = true then 0
      else c2.get_front_row_items.countP (fun fi => fi == item))).sum

/-- `_score_move_unified`, transcribed section by section.  Each section is a
`let` producing `(score delta, reasons, category-contribution delta)` tuples;
the category subtotals (`pair_contrib`, `reveal_contrib`, `penalty_contrib`)
are summed at the end exactly as the Python accumulates them. -/
def scoreMoveUnified (st : GameState) (move : Move)
    (item_status : Item → Nat × Nat × Nat) (strategy : Option SolverStrategy) :
    Int × String :=
  let from_c := st.getC move.from_container
  let to_c := st.getC move.to_container
  let acc := (item_status move.item_id).1
  let near := (item_status move.item_id).2.1
  let is_actionable := 2 ≤ acc + near
  let dest_items := to_c.get_front_row_items
  let matching_at_dest := dest_items.countP (fun it => it == move.item_id)
  let test_state := executeMove st move
  -- === MATCH-ENABLING BONUSES ===
  let secA : Int × List String × Int :=
    if wouldMatch test_state = true then (200, ["creates match"], 0)
    else
      match findOneMoveMatch test_state with
      | none => (0, [], 0)
      | some follow_up =>
        let base : Int × List String :=
          if 1 ≤ matching_at_dest then (120, ["enables match + creates pair"])
          else if dest_items = [] then (80, ["enables match (to empty)"])
          else (40, ["enables match (temp location)"])
        let fu_from_c := test_state.getC follow_up.from_container
        let fu_from_occ := (List.range fu_from_c.slot_count).countP
            (fun s => !(fu_from_c.is_front_slot_empty s))
        let rbonus : Int × List String :=
          if fu_from_occ = 1 ∧ fu_from_c.has_back_row_items = true then
            (20 + 10 * ((getItemsThatWouldAdvance fu_from_c).length : Int),
             ["follow-up reveals "
               ++ toString (getItemsThatWouldAdvance fu_from_c).length ++ " items"])
          else (0, [])
        let fu_state := (processAllMatches (executeMove test_state follow_up)).1
        let cbonus : Int × List String :=
          match findOneMoveMatch fu_state with
          | some _ => (15, ["follow-up chains into match"])
          | none => (0, [])
        (base.1 + rbonus.1 + cbonus.1, base.2 ++ rbonus.2 ++ cbonus.2,
         rbonus.1 + cbonus.1)
  -- === PAIRING BONUS ===
  let already_credited_pair := "enables match + creates pair" ∈ secA.2.1
  let secB : Int × List String × Int × Int × Bool :=
    if matching_at_dest = 1 ∧ ¬already_credited_pair then
      let third_accessible := 3 ≤ acc
      let third_nearly := 3 ≤ acc + near
      let has_room_for_third := 2 ≤ to_c.get_empty_front_slot_count
      if third_accessible ∧ has_room_for_third then
        (180, ["creates completable pair"], 180, 0, false)
      else if third_accessible ∧ ¬has_room_for_third then
        (-50, ["creates BLOCKED pair (no room for 3rd)"], -50, 0, false)
      else if third_nearly ∧ has_room_for_third then
        (if move.item_id ∈ to_c.get_back_row_item_types then
          (-200, ["SELF-BLOCKING pair (3rd hidden HERE)"], -200, 0, false)
        else
          (100, ["creates near-completable pair (3rd nearly accessible)"], 100, 0, false))
      else if ¬third_accessible ∧ has_room_for_third then
        (if to_c.has_back_row_items = true then
          (20 + -80, ["creates waiting pair (3rd hidden)", "pair blocks reveals"],
            20 + -80, 0, false)
        else (20, ["creates waiting pair (3rd hidden)"], 20, 0, false))
      else
        let non_matching := (dest_items.filter (fun it => it ≠ move.item_id)).dedup
        if non_matching ≠ [] ∧ (∀ t ∈ non_matching, 3 ≤ frontCountAcross test_state t) then
          (30, ["creates pair (room will open - blocking type clearable)"], 30, 0, true)
        else (-100, ["creates useless pair (hidden + blocked)"], -100, 0, false)
    else if matching_at_dest = 0 ∧ dest_items ≠ [] ∧
        "enables match (temp location)" ∉ secA.2.1 then
      (-10, ["mixes items"], 0, -10, false)
    else (0, [], 0, 0, false)
  -- === SELF-BLOCKING PAIR PENALTY (enables-match path) ===
  let secC : Int × List String × Int :=
    if 1 ≤ matching_at_dest ∧ already_credited_pair then
      (if move.item_id ∈ to_c.get_back_row_item_types then
        (-200, ["SELF-BLOCKING pair (3rd hidden HERE)"], -200)
      else (0, [], 0))
    else (0, [], 0)
  -- === ACTIONABILITY ===
  let reasonsABC := secA.2.1 ++ secB.2.1 ++ secC.2.1
  let secD : Int × List String × Int :=
    if is_actionable then (30, ["actionable item"], 0)
    else if reasonsABC.any (fun r => r.startsWith "creates match"
        || r.startsWith "enables match" || r == "creates pair") then (0, [], 0)
    else (-40, ["stuck item shuffle"], -40)
  -- === PAIR DESTRUCTION PENALTY ===
  let matching_at_source := from_c.get_front_row_items.countP (fun it => it == move.item_id)
  let secE : Int × List String × Int :=
    if matching_at_source = 2 ∧ ¬(matching_at_dest = 2) then
      let has_room := 1 ≤ from_c.get_empty_front_slot_count
      if 3 ≤ acc ∧ has_room then (-150, ["DESTROYS completable pair"], -150)
      else if 3 ≤ acc ∧ ¬has_room then (-30, ["breaks blocked pair"], -30)
      else (0, [], 0)
    else (0, [], 0)
  -- === ROW ADVANCEMENT BONUS ===
  let from_occupied := (List.range from_c.slot_count).countP
      (fun s => !(from_c.is_front_slot_empty s))
  let secF : Int × List String × Int :=
    if from_occupied = 1 ∧ from_c.has_back_row_items = true then
      let revealed := getItemsThatWouldAdvance from_c
      let base : Int × List String :=
        (100 + 25 * (revealed.length : Int),
         ["triggers row advance (" ++ toString revealed.length ++ " items)"])
      let wp : Int × List String :=
        match revealed.find? (fun rev => hasWaitingPairForItem st rev) with
        | some rev_item => (80, ["reveals " ++ rev_item ++ " for waiting pair"])
        | none => (0, [])
      let combo : Int × List String :=
        if matching_at_dest = 1 ∧ 3 ≤ acc then
          (60, ["combo: completable pair + reveal"])
        else if matching_at_dest = 1 ∧ 3 ≤ acc + near then
          (50, ["combo: near-pair + reveal"])
        else (0, [])
      (base.1 + wp.1 + combo.1, base.2 ++ wp.2 ++ combo.2, base.1 + wp.1 + combo.1)
    else if from_c.has_back_row_items = true then
      (30 + 10 * (from_c.get_back_row_item_count : Int),
       ["progress toward reveal (" ++ toString from_c.get_back_row_item_count ++ " hidden)"],
       30 + 10 * (from_c.get_back_row_item_count : Int))
    else (0, [], 0)
  -- === SOURCE PAIR BONUS (Double-Pair Recognition) ===
  let secG : Int × List String × Int :=
    if from_occupied = 1 ∧ from_c.has_back_row_items = true then
      match (itemCounts (getItemsThatWouldAdvance from_c)).find?
          (fun p => decide (2 ≤ p.2)) with
      | some p => (40, ["reveals source pair (" ++ p.1 ++ ")"], 40)
      | none => (0, [], 0)
    else if 1 < from_occupied then
      match (itemCounts ((List.range from_c.slot_count).filterMap (fun s =>
          if s = move.from_slot then none else from_c.get_front_item s))).find?
          (fun p => decide (2 ≤ p.2)) with
      | some p => (25, ["exposes source pair (" ++ p.1 ++ ")"], 25)
      | none => (0, [], 0)
    else (0, [], 0)
  -- === DESTINATION QUALITY ===
  let secH : Int × List String × Int :=
    if to_c.get_empty_front_slot_count ≤ 1 ∧ secB.2.2.2.2 = false then
      (-15, ["fills container"], -15)
    else (0, [], 0)
  -- === DEADLOCK PREVENTION ===
  let dp := deadlockPenalty st move
  -- === STAGING MOVE ===
  let secJ : Int × List String × Int :=
    if dest_items = [] ∧ matching_at_dest = 0 then
      if from_occupied = 1 ∧ from_c.has_back_row_items = true then
        (20, ["productive staging"], 0)
      else (-5, ["staging move"], -5)
    else (0, [], 0)
  -- === MATCH-IN-PLACE CONSIDERATION ===
  let secK : Int × List String × Int :=
    if 2 ≤ from_c.get_empty_front_slot_count ∧ is_actionable ∧ matching_at_dest = 0 ∧
        ¬(from_occupied = 1 ∧ from_c.has_back_row_items = true) then
      (-35, ["disrupts match-in-place potential"], -35)
    else (0, [], 0)
  -- === MATCH-AT-REVEALING-CONTAINER BONUS ===
  let secL : Int × List String × Int :=
    if to_c.has_back_row_items = true ∧ 1 ≤ matching_at_dest ∧
        (2 ≤ matching_at_dest ∨ (matching_at_dest = 1 ∧ 3 ≤ acc)) then
      let hc := to_c.get_back_row_item_count
      let base : Int × List String :=
        (50 + 20 * (hc : Int),
         ["triple reveals " ++ toString hc ++ " hidden item(s)"])
      if (to_c.get_back_row_item_types.filter (fun h2 => h2 ≠ move.item_id)) ≠ [] then
        (base.1 + 30, base.2 ++ ["clears container for revealed items"], base.1 + 30)
      else (base.1, base.2, base.1)
    else (0, [], 0)
  -- === TOTALS AND STRATEGY WEIGHT ADJUSTMENTS ===
  let pair_contrib := secB.2.2.1 + secC.2.2 + secE.2.2 + secG.2.2
  let reveal_contrib := secA.2.2 + secF.2.2 + secL.2.2
  let penalty_contrib := secB.2.2.2.1 + secD.2.2 + secH.2.2 + dp.1 + secJ.2.2 + secK.2.2
  let score := secA.1 + secB.1 + secC.1 + secD.1 + secE.1 + secF.1 + secG.1
      + secH.1 + dp.1 + secJ.1 + secK.1 + secL.1
  let score2 := match strategy with
    | some sgy => score + sgy.pairAdjust pair_contrib
        + sgy.revealAdjust reveal_contrib + sgy.cautionAdjust penalty_contrib
    | none => score
  let reasons := secA.2.1 ++ secB.2.1 ++ secC.2.1 ++ secD.2.1 ++ secE.2.1
      ++ secF.2.1 ++ secG.2.1 ++ secH.2.1 ++ dp.2 ++ secJ.2.1 ++ secK.2.1 ++ secL.2.1
  (score2, if reasons = [] then "neutral" else String.intercalate ", " reasons)

/-- The RULE 4-6 body of `_find_best_move` for one candidate move: unified
score, reversal penalty, pattern penalty, optional noise.  The noise RNG is
modelled as a stream `f : Nat -> Int` of `randint(-m, m)` outputs consumed
through the running draw counter carried in the accumulator (the drawn
value's bound plays no role in any claim). -/
def scoreStep (st : GameState) (last_move : Option Move) (recent_set : List String)
    (strategy : Option SolverStrategy) (noiseRng : Option (Nat → Int))
    (acc : List (Int × Move × String) × Nat) (move : Move) :
    List (Int × Move × String) × Nat :=
  let sr := scoreMoveUnified st move (fun it => itemStatus st it) strategy
  let s1 : Int × String := match last_move with
    | some lm => if isReversalMove move lm = true
        then (sr.1 - 1000, sr.2 ++ ", REVERSAL PENALTY") else sr
    | none => sr
  let reverse_key := move.item_id ++ ":" ++ toString move.to_container
      ++ "->" ++ toString move.from_container
  let s2 : Int × String := if reverse_key ∈ recent_set
    then (s1.1 - 500, s1.2 ++ ", PATTERN PENALTY") else s1
  let s3 : Int × Nat := match noiseRng, strategy with
    | some f, some sgy =>
      if 0 < sgy.noise_magnitude then (s2.1 + f acc.2, acc.2 + 1)
      else (s2.1, acc.2)
    | _, _ => (s2.1, acc.2)
  (acc.1 ++ [(s3.1, move, s2.2)], s3.2)

/-- `_find_best_move`.  Rule 1 always returns a one-move match when one
exists; otherwise all enumerated moves are scored, reversal/pattern penalties
applied, optional noise added, and the stable-sort maximum taken. -/
def findBestMove (st : GameState) (last_move : Option Move)
    (recent_moves : List Move) (strategy : Option SolverStrategy)
    (noiseRng : Option (Nat → Int)) (k : Nat) : Option (Move × Nat) :=
  match findOneMoveMatch st with
  | some one_move =>
    some ({ one_move with score := 999, reason := "1-move match (always taken)" }, k)
  | none =>
    let all_moves := getAllValidMoves st
    if all_moves = [] then none
    else
      let recent_set := recent_moves.map (fun rm =>
        rm.item_id ++ ":" ++ toString rm.from_container ++ "->" ++ toString rm.to_container)
      let scoredk := all_moves.foldl
        (scoreStep st last_move recent_set strategy noiseRng) ([], k)
      match pickByScore (fun t => t.1) scoredk.1 with
      | some best => some ({ best.2.1 with score := best.1, reason := best.2.2 }, scoredk.2)
      | none => none

/-- `"No valid moves. {n} items remaining."` -/
def noValidMovesMsg (n : Nat) : String :=
  "No valid moves. " ++ toString n ++ " items remaining."

/-- An `initial_items` entry of a level record. -/
structure InitItem where
  id : Item
  row : Int
  slot : Int
  deriving DecidableEq, Repr

/-- A container entry of a level record (only the fields `_initialize_state`
reads). -/
structure LevelContainer where
  id : String
  slot_count : Int
  max_rows_per_slot : Int
  is_locked : Bool
  unlock_matches_required : Int
  initial_items : List InitItem
  deriving DecidableEq, Repr

/-- A level record (only the fields the solver reads). -/
structure Level where
  containers : List LevelContainer
  deriving DecidableEq, Repr

/-- `_initialize_state`: non-positive `slot_count`/`max_rows_per_slot` are
coerced to the defaults 3 and 4, and initial items out of grid range are
dropped.  The Python function never returns `None`, so the `state is None`
branch of `solve_level` is dead code and the model is total. -/
def initializeState (level : Level) : GameState :=
  { containers := level.containers.map (fun cdef =>
      let slot_count := if cdef.slot_count ≤ 0 then 3 else cdef.slot_count.toNat
      let max_rows := if cdef.max_rows_per_slot ≤ 0 then 4 else cdef.max_rows_per_slot.toNat
      cdef.initial_items.foldl (fun c item =>
        if 0 ≤ item.slot ∧ item.slot < (slot_count : Int)
            ∧ 0 ≤ item.row ∧ item.row < (max_rows : Int) then
          c.setCell item.slot.toNat item.row.toNat (some item.id)
        else c)
        { id := cdef.id, slot_count := slot_count, max_rows := max_rows,
          is_locked := cdef.is_locked,
          unlock_matches_required := cdef.unlock_matches_required,
          current_unlock_progress := 0,
          slots := List.replicate slot_count (List.replicate max_rows none) }),
    move_count := 0, match_count := 0 }

lemma executeMove_move_count (st : GameState) (m : Move) :
    (executeMove st m).move_count = st.move_count + 1 := rfl

/-- The `while` loop of `solve_level`.  Terminates because every iteration
executes a move, which increments `move_count`, and the loop requires
`move_count < limit`. -/
def solveLoop (strategy : Option SolverStrategy) (noiseRng : Option (Nat → Int))
    (limit : Nat) (st : GameState) (last_move : Option Move)
    (recent_moves : List Move) (seq : List Move) (k : Nat) : SolveResult :=
  if h : st.is_complete = false ∧ st.move_count < limit then
    match findBestMove st last_move recent_moves strategy noiseRng k with
    | none =>
      { success := false, total_moves := st.move_count, total_matches := st.match_count,
        move_sequence := seq, failure_reason := noValidMovesMsg st.get_total_item_count }
    | some (best, k2) =>
      let seq2 := seq ++ [best]
      let recents1 := recent_moves ++ [best]
      let recents2 := if PATTERN_WINDOW < recents1.length then recents1.drop 1 else recents1
      if 0 < (processAllMatches (executeMove st best)).2 then
        solveLoop strategy noiseRng limit
          (processAllMatches (executeMove st best)).1 none [] seq2 k2
      else
        solveLoop strategy noiseRng limit
          (processAllMatches (executeMove st best)).1 (some best) recents2 seq2 k2
  else
    if st.is_complete = true then
      { success := true, total_moves := st.move_count, total_matches := st.match_count,
        move_sequence := seq, failure_reason := "" }
    else
      { success := false, total_moves := st.move_count, total_matches := st.match_count,
        move_sequence := seq, failure_reason := "Max moves exceeded" }
termination_by limit - st.move_count
decreasing_by
  all_goals
    have h1 : (processAllMatches (executeMove st best)).1.move_count = st.move_count + 1 := by
      rw [pam_move_count, executeMove_move_count]
    omega

/-- `solve_level`: initialize, process initial matches, then loop.  `noise`
is the abstract stream of the seeded noise RNG's outputs; it is wrapped in
`Option` exactly as the Python wraps `noise_rng` (present only when the
strategy's `noise_magnitude` is positive). -/
def solveLevel (level : Level) (strategy : Option SolverStrategy)
    (noise : Nat → Int) (move_limit : Nat) : SolveResult :=
  let effective_limit := if 0 < move_limit then move_limit else MAX_MOVES
  let noiseRng : Option (Nat → Int) :=
    match strategy with
    | some sgy => if 0 < sgy.noise_magnitude then some noise else none
    | none => none
  solveLoop strategy noiseRng effective_limit
    (processAllMatches (initializeState level)).1 none [] [] 0

lemma itemCounts_spec (xs : List Item) :
    (∀ p ∈ itemCounts xs, p.1 ∈ xs ∧ p.2 = xs.count p.1) ∧
    (∀ x ∈ xs, ∃ n, (x, n) ∈ itemCounts xs ∧ n = xs.count x) := by
  induction xs using List.reverseRecOn with
  | nil => simp [itemCounts]
  | append_singleton xs x ih =>
    obtain ⟨ih1, ih2⟩ := ih
    have hstep : itemCounts (xs ++ [x]) =
        (if (itemCounts xs).any (fun p => p.1 == x) then
          (itemCounts xs).map (fun p => if p.1 == x then (p.1, p.2 + 1) else p)
        else itemCounts xs ++ [(x, 1)]) := by
      unfold itemCounts
      rw [List.foldl_append]
      rfl
    constructor
    · intro p hp
      rw [hstep] at hp
      split at hp
      · rw [List.mem_map] at hp
        obtain ⟨q, hq, hpq⟩ := hp
        obtain ⟨hq1, hq2⟩ := ih1 q hq
        by_cases hqx : q.1 = x
        · rw [if_pos (by simp [hqx])] at hpq
          subst hpq
          constructor
          · simp [List.mem_append, hq1]
          · simp only [List.count_append, hqx]
            rw [hq2, hqx]
            simp [List.count_singleton]
        · rw [if_neg (by simp [hqx])] at hpq
          subst hpq
          constructor
          · simp [List.mem_append, hq1]
          · rw [List.count_append, hq2]
            have : ([x].count q.1) = 0 := by
              simp [List.count_singleton]
              exact fun hcontra => hqx hcontra.symm
            omega
      · rcases List.mem_append.mp hp with hin | hin
        · obtain ⟨hq1, hq2⟩ := ih1 p hin
          refine ⟨by simp [List.mem_append, hq1], ?_⟩
          rw [List.count_append, hq2]
          next hany =>
          have hxnot : p.1 ≠ x := by
            intro hcontra
            rcases ih2 x (hcontra ▸ hq1) with ⟨n, hn, _⟩
            exact hany (List.any_eq_true.mpr ⟨(x, n), hn, by simp⟩)
          have : ([x].count p.1) = 0 := by
            simp [List.count_singleton]
            exact fun hcontra => hxnot hcontra.symm
          omega
        · next hany =>
          rw [List.mem_singleton] at hin
          subst hin
          refine ⟨by simp, ?_⟩
          have hxnot : x ∉ xs := by
            intro hcontra
            rcases ih2 x hcontra with ⟨n, hn, _⟩
            exact hany (List.any_eq_true.mpr ⟨(x, n), hn, by simp⟩)
          rw [List.count_append]
          rw [List.count_eq_zero.mpr hxnot]
          simp [List.count_singleton]
    · intro y hy
      rw [hstep]
      rcases List.mem_append.mp hy with hin | hin
      · obtain ⟨n, hn, hcnt⟩ := ih2 y hin
        split
        · by_cases hyx : y = x
          · refine ⟨n + 1, List.mem_map.mpr ⟨(y, n), hn, by simp [hyx]⟩, ?_⟩
            rw [List.count_append, ← hcnt, hyx]
            simp [List.count_singleton]
          · refine ⟨n, List.mem_map.mpr ⟨(y, n), hn, by simp [hyx]⟩, ?_⟩
            rw [List.count_append, ← hcnt]
            have : ([x].count y) = 0 := by
              simp [List.count_singleton]
              exact fun hcontra => hyx hcontra.symm
            omega
        · next hany =>
          by_cases hyx : y = x
          · exact absurd (List.any_eq_true.mpr ⟨(y, n), hn, by simp [hyx]⟩) hany
          · refine ⟨n, by simp [List.mem_append, hn], ?_⟩
            rw [List.count_append, ← hcnt]
            have : ([x].count y) = 0 := by
              simp [List.count_singleton]
              exact fun hcontra => hyx hcontra.symm
            omega
      · rw [List.mem_singleton] at hin
        subst hin
        split
        · next hany =>
          obtain ⟨p, hp, hpx⟩ := List.any_eq_true.mp hany
          have hx1 : p.1 = y := by simpa using hpx
          obtain ⟨hq1, hq2⟩ := ih1 p hp
          refine ⟨p.2 + 1, List.mem_map.mpr ⟨p, hp, by simp [hx1]⟩, ?_⟩
          rw [List.count_append, hq2, hx1]
          simp [List.count_singleton]
        · next hany =>
          have hxnot : y ∉ xs := by
            intro hcontra
            rcases ih2 y hcontra with ⟨n, hn, _⟩
            exact hany (List.any_eq_true.mpr ⟨(y, n), hn, by simp⟩)
          refine ⟨1, by simp, ?_⟩
          rw [List.count_append, List.count_eq_zero.mpr hxnot]
          simp [List.count_singleton]

/-- Membership in the `_find_one_move_match` candidate list, unfolded. -/
lemma mem_oneMoveCandidates_iff (st : GameState) (p : Int × Move) :
    p ∈ oneMoveCandidates st ↔
      ∃ ci empty_slot tc oci os,
        ci < st.containers.length ∧
        (st.getC ci).is_locked = false ∧ 3 ≤ (st.getC ci).slot_count ∧
        firstEmptyFrontSlot (st.getC ci) = some empty_slot ∧
        2 ≤ (st.getC ci).get_front_row_items.length ∧
        tc ∈ itemCounts (st.getC ci).get_front_row_items ∧ 2 ≤ tc.2 ∧
        oci < st.containers.length ∧ oci ≠ ci ∧ (st.getC oci).is_locked = false ∧
        os < (st.getC oci).slot_count ∧
        (st.getC oci).get_front_item os = some tc.1 ∧
        p = (oneMoveRevealScore st ci oci, Move.mk' oci os ci empty_slot tc.1) := by
  unfold oneMoveCandidates
  rw [List.mem_flatMap]
  constructor
  · rintro ⟨ci, hci, hp⟩
    rw [List.mem_range] at hci
    split at hp
    · simp at hp
    · next hc1 =>
      push_neg at hc1
      obtain ⟨hlock, hsc⟩ := hc1
      cases hfe : firstEmptyFrontSlot (st.getC ci) with
      | none => simp only [hfe] at hp; simp at hp
      | some empty_slot =>
        simp only [hfe] at hp
        split at hp
        · simp at hp
        · next hlen =>
          rw [Nat.not_lt] at hlen
          rw [List.mem_flatMap] at hp
          obtain ⟨tc, htc, hp2⟩ := hp
          split at hp2
          · simp at hp2
          · next htc2 =>
            rw [Nat.not_lt] at htc2
            rw [List.mem_flatMap] at hp2
            obtain ⟨oci, hoci, hp3⟩ := hp2
            rw [List.mem_range] at hoci
            split at hp3
            · simp at hp3
            · next hc3 =>
              push_neg at hc3
              obtain ⟨hne, hlock2⟩ := hc3
              rw [List.mem_filterMap] at hp3
              obtain ⟨os, hos, hcand⟩ := hp3
              rw [List.mem_range] at hos
              split at hcand
              · next hfi =>
                refine ⟨ci, empty_slot, tc, oci, os, hci,
                  by simpa using hlock, by omega, hfe, by omega, htc,
                  htc2, hoci, hne, by simpa using hlock2, hos, hfi, by
                    simpa using hcand.symm⟩
              · simp at hcand
  · rintro ⟨ci, empty_slot, tc, oci, os, hci, hlock, hsc, hfe, hlen, htc,
      htc2, hoci, hne, hlock2, hos, hfi, rfl⟩
    refine ⟨ci, List.mem_range.mpr hci, ?_⟩
    have hg1 : ¬((st.getC ci).is_locked = true ∨ (st.getC ci).slot_count < 3) := by
      push_neg
      exact ⟨by simp [hlock], by omega⟩
    rw [if_neg hg1]
    simp only [hfe]
    rw [if_neg (show ¬((st.getC ci).get_front_row_items.length < 2) by omega)]
    rw [List.mem_flatMap]
    refine ⟨tc, htc, ?_⟩
    rw [if_neg (show ¬(tc.2 < 2) by omega)]
    rw [List.mem_flatMap]
    refine ⟨oci, List.mem_range.mpr hoci, ?_⟩
    have hg3 : ¬(oci = ci ∨ (st.getC oci).is_locked = true) := by
      push_neg
      exact ⟨hne, by simp [hlock2]⟩
    rw [if_neg hg3]
    rw [List.mem_filterMap]
    refine ⟨os, List.mem_range.mpr hos, ?_⟩
    rw [if_pos hfi]

lemma not_isEmpty_of_front (c : ContainerState)
    (h : c.get_front_row_items ≠ []) : c.is_empty = false := by
  obtain ⟨it, hmem⟩ := List.exists_mem_of_ne_nil _ h
  unfold ContainerState.get_front_row_items at hmem
  rw [List.mem_filterMap] at hmem
  obtain ⟨s, _, hcell⟩ := hmem
  unfold ContainerState.cell at hcell
  by_contra hne
  rw [Bool.not_eq_false] at hne
  unfold ContainerState.is_empty at hne
  rw [List.all_eq_true] at hne
  have hslot : s < c.slots.length := by
    by_contra hge
    push_neg at hge
    have houter : c.slots.getD s [] = [] := by
      rw [List.getD_eq_getElem?_getD, List.getElem?_eq_none hge]
      rfl
    rw [houter] at hcell
    simp at hcell
  have hmem2 : c.slots.getD s [] ∈ c.slots := by
    rw [List.getD_eq_getElem?_getD, List.getElem?_eq_getElem hslot]
    exact List.getElem_mem hslot
  have hsl := hne _ hmem2
  rw [List.all_eq_true] at hsl
  have h0len : 0 < (c.slots.getD s []).length := by
    by_contra hz
    push_neg at hz
    rw [List.getD_eq_getElem?_getD (c.slots.getD s []),
      List.getElem?_eq_none (by omega)] at hcell
    simp at hcell
  have hget : (c.slots.getD s []).getD 0 none ∈ c.slots.getD s [] := by
    rw [List.getD_eq_getElem?_getD (c.slots.getD s []),
      List.getElem?_eq_getElem h0len]
    exact List.getElem_mem h0len
  have hx := hsl _ hget
  rw [hcell] at hx
  simp at hx

lemma oneMoveCandidate_valid (st : GameState) (p : Int × Move)
    (hp : p ∈ oneMoveCandidates st) : ValidMoveSpec st p.2 := by
  obtain ⟨ci, es, tc, oci, os, hci, hlock, hsc, hfe, hlen, htc, htc2,
    hoci, hne, hlock2, hos, hfi, hpe⟩ := (mem_oneMoveCandidates_iff st p).mp hp
  subst hpe
  show ValidMoveSpec st (Move.mk' oci os ci es tc.1)
  refine ⟨hoci, hlock2, hos, hfi, hci, Ne.symm hne, hlock, ?_, hfe, rfl, rfl⟩
  intro hempty
  have hempty2 : isEmptyUnlockedAt st ci = true := hempty
  exfalso
  have hfront : (st.getC ci).get_front_row_items ≠ [] := by
    intro hnil
    rw [hnil] at hlen
    simp at hlen
  have hiec := not_isEmpty_of_front _ hfront
  unfold isEmptyUnlockedAt at hempty2
  rw [hiec] at hempty2
  simp at hempty2

lemma findOneMoveMatch_none_iff (st : GameState) :
    findOneMoveMatch st = none ↔ oneMoveCandidates st = [] := by
  unfold findOneMoveMatch
  rw [Option.map_eq_none']
  exact pickByScore_eq_none_iff _ _

lemma findOneMoveMatch_some_mem (st : GameState) (m : Move)
    (h : findOneMoveMatch st = some m) :
    ∃ r, (r, m) ∈ oneMoveCandidates st ∧
      ∀ q ∈ oneMoveCandidates st, q.1 ≤ r := by
  unfold findOneMoveMatch at h
  cases hpk : pickByScore (fun p => p.1) (oneMoveCandidates st) with
  | none => rw [hpk] at h; simp at h
  | some p =>
    rw [hpk] at h
    simp only [Option.map_some'] at h
    rw [Option.some.injEq] at h
    have hne : oneMoveCandidates st ≠ [] := by
      intro hnil
      rw [hnil] at hpk
      simp [pickByScore] at hpk
    obtain ⟨x, hx1, hx2, hx3⟩ := pickByScore_spec _ _ hne
    rw [hpk, Option.some.injEq] at hx1
    subst hx1
    refine ⟨p.1, ?_, ?_⟩
    · rw [← h, Prod.mk.eta]
      exact hx2
    · exact hx3

lemma scoreStep_length (st : GameState) (lm : Option Move) (rs : List String)
    (strategy : Option SolverStrategy) (nr : Option (Nat → Int))
    (acc : List (Int × Move × String) × Nat) (m : Move) :
    (scoreStep st lm rs strategy nr acc m).1.length = acc.1.length + 1 := by
  unfold scoreStep
  simp

lemma scoreFold_length (st : GameState) (lm : Option Move) (rs : List String)
    (strategy : Option SolverStrategy) (nr : Option (Nat → Int)) :
    ∀ (moves : List Move) (acc : List (Int × Move × String) × Nat),
      ((moves.foldl (scoreStep st lm rs strategy nr) acc).1.length
        = acc.1.length + moves.length) := by
  intro moves
  induction moves with
  | nil => intro acc; simp
  | cons m rest ih =>
    intro acc
    rw [List.foldl_cons, ih, scoreStep_length]
    simp
    omega

/-- `_find_best_move` returns `None` exactly when the move enumerator is
empty (a one-move match is always one of the enumerated moves). -/
lemma findBestMove_none_iff (st : GameState) (lm : Option Move)
    (recents : List Move) (strategy : Option SolverStrategy)
    (nr : Option (Nat → Int)) (k : Nat) :
    findBestMove st lm recents strategy nr k = none ↔ getAllValidMoves st = [] := by
  unfold findBestMove
  cases hone : findOneMoveMatch st with
  | some m =>
    constructor
    · intro h
      simp at h
    · intro h
      exfalso
      obtain ⟨r, hmem, _⟩ := findOneMoveMatch_some_mem st m hone
      have hv := oneMoveCandidate_valid st (r, m) hmem
      have := (mem_getAllValidMoves_iff st m).mpr hv
      rw [h] at this
      simp at this
  | none =>
    by_cases hmv : getAllValidMoves st = []
    · rw [if_pos hmv]
      simp [hmv]
    · rw [if_neg hmv]
      constructor
      · intro hcontra
        have hlen := scoreFold_length st lm (recents.map (fun rm =>
          rm.item_id ++ ":" ++ toString rm.from_container ++ "->"
            ++ toString rm.to_container)) strategy nr (getAllValidMoves st) ([], k)
        have hne2 : ((getAllValidMoves st).foldl
            (scoreStep st lm (recents.map (fun rm =>
              rm.item_id ++ ":" ++ toString rm.from_container ++ "->"
                ++ toString rm.to_container)) strategy nr) ([], k)).1 ≠ [] := by
          intro hnil
          rw [hnil] at hlen
          simp at hlen
          exact hmv (List.length_eq_zero.mp hlen.symm)
        obtain ⟨x, hx1, _, _⟩ := pickByScore_spec (fun t => t.1) _ hne2
        simp only [] at hcontra
        rw [hx1] at hcontra
        simp at hcontra
      · intro h
        exact absurd h hmv

/-- Loop invariant of `solve_level`: the recorded move sequence always has
exactly `total_moves` entries, and a failing result carries either the
move-limit reason or the no-valid-moves reason with a positive remaining-item
count. -/
theorem solveLoop_spec (strategy : Option SolverStrategy)
    (noiseRng : Option (Nat → Int)) (limit : Nat) (st : GameState)
    (last_move : Option Move) (recent_moves : List Move) (seq : List Move)
    (k : Nat) (hseq : seq.length = st.move_count) :
    (solveLoop strategy noiseRng limit st last_move recent_moves seq k).move_sequence.length
      = (solveLoop strategy noiseRng limit st last_move recent_moves seq k).total_moves ∧
    ((solveLoop strategy noiseRng limit st last_move recent_moves seq k).success = false →
      (solveLoop strategy noiseRng limit st last_move recent_moves seq k).failure_reason
          = "Max moves exceeded" ∨
      ∃ n, 0 < n ∧
        (solveLoop strategy noiseRng limit st last_move recent_moves seq k).failure_reason
          = noValidMovesMsg n) := by
  rw [solveLoop]
  split
  · next h =>
    cases hfb : findBestMove st last_move recent_moves strategy noiseRng k with
    | none =>
      simp only []
      refine ⟨hseq, fun _ => Or.inr ⟨st.get_total_item_count, ?_, rfl⟩⟩
      have hcomp := h.1
      unfold GameState.is_complete at hcomp
      simp at hcomp
      omega
    | some p =>
      obtain ⟨best, k2⟩ := p
      simp only []
      have hnext : (processAllMatches (executeMove st best)).1.move_count
          = st.move_count + 1 := by
        rw [pam_move_count, executeMove_move_count]
      have hseq2 : (seq ++ [best]).length
          = (processAllMatches (executeMove st best)).1.move_count := by
        rw [hnext]
        simp [hseq]
      split
      · exact solveLoop_spec strategy noiseRng limit
          (processAllMatches (executeMove st best)).1 none [] (seq ++ [best]) k2 hseq2
      · exact solveLoop_spec strategy noiseRng limit
          (processAllMatches (executeMove st best)).1 (some best)
          (if PATTERN_WINDOW < (recent_moves ++ [best]).length
            then (recent_moves ++ [best]).drop 1 else recent_moves ++ [best])
          (seq ++ [best]) k2 hseq2
  · next h =>
    split
    · exact ⟨hseq, fun hfalse => absurd hfalse (by simp)⟩
    · exact ⟨hseq, fun _ => Or.inl rfl⟩
termination_by limit - st.move_count
decreasing_by
  all_goals
    have h1 : (processAllMatches (executeMove st best)).1.move_count = st.move_count + 1 := by
      rw [pam_move_count, executeMove_move_count]
    omega

/-- C7: `solve_level` always returns a `SolveResult` value (the model is a
total function; `_initialize_state` never returns `None`, so the only raise
path is unreachable).  On failure the reason is either the move-limit message
with the partial move/match counts recorded, or the no-valid-moves message
reporting a positive number of remaining items; in particular, when the
initial processed board is non-terminal and the enumerator offers no legal
move, the result is exactly the failure record carrying the remaining item
count and the board's counts. -/
theorem sortresort_C7 (level : Level) (strategy : Option SolverStrategy)
    (noise : Nat → Int) (move_limit : Nat) :
    ((solveLevel level strategy noise move_limit).move_sequence.length
      = (solveLevel level strategy noise move_limit).total_moves) ∧
    ((solveLevel level strategy noise move_limit).success = false →
      (solveLevel level strategy noise move_limit).failure_reason
          = "Max moves exceeded" ∨
      ∃ n, 0 < n ∧
        (solveLevel level strategy noise move_limit).failure_reason
          = noValidMovesMsg n) ∧
    ((processAllMatches (initializeState level)).1.is_complete = false →
      getAllValidMoves (processAllMatches (initializeState level)).1 = [] →
      solveLevel level strategy noise move_limit =
        { success := false,
          total_moves := (processAllMatches (initializeState level)).1.move_count,
          total_matches := (processAllMatches (initializeState level)).1.match_count,
          move_sequence := [],
          failure_reason := noValidMovesMsg
            (processAllMatches (initializeState level)).1.get_total_item_count }) := by
  have hseq0 : ([] : List Move).length
      = (processAllMatches (initializeState level)).1.move_count := by
    rw [pam_move_count]
    rfl
  obtain ⟨hs1, hs2⟩ := solveLoop_spec strategy
    (match strategy with
      | some sgy => if 0 < sgy.noise_magnitude then some noise else none
      | none => none)
    (if 0 < move_limit then move_limit else MAX_MOVES)
    (processAllMatches (initializeState level)).1 none [] [] 0 hseq0
  refine ⟨hs1, hs2, ?_⟩
  intro hcomp hmoves
  unfold solveLevel
  rw [solveLoop]
  have hmc : (processAllMatches (initializeState level)).1.move_count = 0 := by
    rw [pam_move_count]
    rfl
  rw [dif_pos ⟨hcomp, by
    rw [hmc]
    split
    · omega
    · norm_num [MAX_MOVES]⟩]
  rw [(findBestMove_none_iff _ _ _ _ _ _).mpr hmoves]
termination_by 0
decreasing_by simp

/-- The baseline `Balanced` strategy: all three weights are exactly `1.0`,
so every `int(contrib * (weight - 1.0))` adjustment is exactly `0`, and
`noise_magnitude = 0`. -/
def BALANCED : SolverStrategy :=
  { name := "Balanced", pairAdjust := fun _ => 0, revealAdjust := fun _ => 0,
    cautionAdjust := fun _ => 0, noise_magnitude := 0 }

/-- C5: with a strategy whose `noise_magnitude` is 0 (or no strategy at all,
the Python default `None`), `solve_level` never consults the noise RNG, so
any two runs — here, runs with arbitrary, distinct noise streams — return
identical `SolveResult`s: same success flag, same move sequence, and same
total move and match counts. -/
theorem sortresort_C5 (level : Level) (strategy : Option SolverStrategy)
    (hmag : ∀ sgy, strategy = some sgy → sgy.noise_magnitude = 0)
    (noise1 noise2 : Nat → Int) (move_limit : Nat) :
    solveLevel level strategy noise1 move_limit
      = solveLevel level strategy noise2 move_limit := by
  unfold solveLevel
  cases strategy with
  | none => rfl
  | some sgy =>
    have h0 : sgy.noise_magnitude = 0 := hmag sgy rfl
    simp [h0]

/-- A tiny fixed level for the C5 witness. -/
def c5WitnessLevel : Level :=
  { containers := [
      { id := "a", slot_count := 3, max_rows_per_slot := 1, is_locked := false,
        unlock_matches_required := 0,
        initial_items := [⟨"X", 0, 0⟩] }] }

theorem sortresort_C5_witness :
    solveLevel c5WitnessLevel (some BALANCED) (fun _ => 0) 0
      = solveLevel c5WitnessLevel (some BALANCED) (fun _ => 37) 0 :=
  sortresort_C5 c5WitnessLevel (some BALANCED)
    (fun sgy h => by cases h; rfl) (fun _ => 0) (fun _ => 37) 0

/-- A board where the solver is stuck immediately: one 3-slot container with
two different items and no other container to move to. -/
def c7WitnessLevel : Level :=
  { containers := [
      { id := "a", slot_count := 3, max_rows_per_slot := 1, is_locked := false,
        unlock_matches_required := 0,
        initial_items := [⟨"X", 0, 0⟩, ⟨"Y", 0, 1⟩] }] }

theorem sortresort_C7_witness :
    ((processAllMatches (initializeState c7WitnessLevel)).1.is_complete = false) ∧
    (getAllValidMoves (processAllMatches (initializeState c7WitnessLevel)).1 = []) ∧
    solveLevel c7WitnessLevel none (fun _ => 0) 0 =
      { success := false, total_moves := 0, total_matches := 0,
        move_sequence := [], failure_reason := noValidMovesMsg 2 } := by
  have hpp : processPass (initializeState c7WitnessLevel)
      = (initializeState c7WitnessLevel, 0) := by decide
  have hpam : processAllMatches (initializeState c7WitnessLevel)
      = (initializeState c7WitnessLevel, 0) := by
    rw [processAllMatches, hpp]
    norm_num
  have h1 : (processAllMatches (initializeState c7WitnessLevel)).1.is_complete = false := by
    rw [hpam]
    decide
  have h2 : getAllValidMoves (processAllMatches (initializeState c7WitnessLevel)).1 = [] := by
    rw [hpam]
    decide
  refine ⟨h1, h2, ?_⟩
  have h3 := (sortresort_C7 c7WitnessLevel none (fun _ => 0) 0).2.2 h1 h2
  rw [h3, hpam]
  decide

lemma getC_mem (st : GameState) (i : Nat) (hi : i < st.containers.length) :
    st.getC i ∈ st.containers := by
  unfold GameState.getC
  rw [List.getD_eq_getElem?_getD, List.getElem?_eq_getElem hi]
  exact List.getElem_mem hi

lemma firstEmptyFrontSlot_spec (c : ContainerState) (es : Nat)
    (h : firstEmptyFrontSlot c = some es) :
    es < c.slot_count ∧ c.is_front_slot_empty es = true := by
  unfold firstEmptyFrontSlot at h
  exact ⟨List.mem_range.mp (List.mem_of_find?_eq_some h), List.find?_some h⟩

/-- A move "immediately completes a triple match" (the spec's phrase): it is
a legal enumerated move whose destination has `slot_count >= 3` and whose
other front slots all already hold the moved item type, so placing the item
fills the front row with one type. -/
def CompletingMove (st : GameState) (m : Move) : Prop :=
  m ∈ getAllValidMoves st ∧
  3 ≤ (st.getC m.to_container).slot_count ∧
  ∀ s, s < (st.getC m.to_container).slot_count → s ≠ m.to_slot →
    (st.getC m.to_container).get_front_item s = some m.item_id

lemma range3_eq : List.range 3 = [0, 1, 2] := rfl

lemma front3_values (c : ContainerState) (h3 : c.slot_count = 3) (es : Nat)
    (hes : es < 3) (hnone : c.cell es 0 = none) (t : Item)
    (hall : ∀ s, s < 3 → s ≠ es → c.get_front_item s = some t) :
    c.get_front_row_items = [t, t] := by
  have hF : c.get_front_row_items = [0, 1, 2].filterMap (fun s => c.cell s 0) := by
    unfold ContainerState.get_front_row_items
    rw [h3, range3_eq]
  rw [hF]
  interval_cases es
  · have h1 := hall 1 (by omega) (by omega)
    have h2 := hall 2 (by omega) (by omega)
    unfold ContainerState.get_front_item at h1 h2
    simp [List.filterMap_cons, hnone, h1, h2]
  · have h1 := hall 0 (by omega) (by omega)
    have h2 := hall 2 (by omega) (by omega)
    unfold ContainerState.get_front_item at h1 h2
    simp [List.filterMap_cons, hnone, h1, h2]
  · have h1 := hall 0 (by omega) (by omega)
    have h2 := hall 1 (by omega) (by omega)
    unfold ContainerState.get_front_item at h1 h2
    simp [List.filterMap_cons, hnone, h1, h2]

lemma front3_forces (c : ContainerState) (h3 : c.slot_count = 3) (es : Nat)
    (hes : es < 3) (hnone : c.cell es 0 = none) (t : Item)
    (hcount : 2 ≤ c.get_front_row_items.count t) :
    ∀ s, s < 3 → s ≠ es → c.get_front_item s = some t := by
  have hF : c.get_front_row_items = [0, 1, 2].filterMap (fun s => c.cell s 0) := by
    unfold ContainerState.get_front_row_items
    rw [h3, range3_eq]
  rw [hF] at hcount
  unfold ContainerState.get_front_item
  interval_cases es
  · rcases h1 : c.cell 1 0 with _ | x1 <;> rcases h2 : c.cell 2 0 with _ | x2 <;>
      simp only [List.filterMap_cons, List.filterMap_nil, hnone, h1, h2] at hcount
    · simp at hcount
    · rw [List.count_singleton'] at hcount
      split at hcount <;> omega
    · rw [List.count_singleton'] at hcount
      split at hcount <;> omega
    · have hx : x1 = t ∧ x2 = t := by
        by_cases hxt : x1 = t <;> by_cases hyt : x2 = t <;>
          simp [List.count_cons, List.count_nil, hxt, hyt] at hcount <;> tauto
      intro s hs hne
      match s with
      | 0 => exact absurd rfl hne
      | 1 => rw [h1, hx.1]
      | 2 => rw [h2, hx.2]
  · rcases h1 : c.cell 0 0 with _ | x1 <;> rcases h2 : c.cell 2 0 with _ | x2 <;>
      simp only [List.filterMap_cons, List.filterMap_nil, hnone, h1, h2] at hcount
    · simp at hcount
    · rw [List.count_singleton'] at hcount
      split at hcount <;> omega
    · rw [List.count_singleton'] at hcount
      split at hcount <;> omega
    · have hx : x1 = t ∧ x2 = t := by
        by_cases hxt : x1 = t <;> by_cases hyt : x2 = t <;>
          simp [List.count_cons, List.count_nil, hxt, hyt] at hcount <;> tauto
      intro s hs hne
      match s with
      | 0 => rw [h1, hx.1]
      | 1 => exact absurd rfl hne
      | 2 => rw [h2, hx.2]
  · rcases h1 : c.cell 0 0 with _ | x1 <;> rcases h2 : c.cell 1 0 with _ | x2 <;>
      simp only [List.filterMap_cons, List.filterMap_nil, hnone, h1, h2] at hcount
    · simp at hcount
    · rw [List.count_singleton'] at hcount
      split at hcount <;> omega
    · rw [List.count_singleton'] at hcount
      split at hcount <;> omega
    · have hx : x1 = t ∧ x2 = t := by
        by_cases hxt : x1 = t <;> by_cases hyt : x2 = t <;>
          simp [List.count_cons, List.count_nil, hxt, hyt] at hcount <;> tauto
      intro s hs hne
      match s with
      | 0 => rw [h1, hx.1]
      | 1 => rw [h2, hx.2]
      | 2 => exact absurd rfl hne

/-- C2: on a board whose containers all have 1 or 3 slots (the data model's
`slot_count` domain), whenever some legal move immediately completes a triple,
`_find_best_move` returns a one-move match (never a merely scored candidate):
`_find_one_move_match` yields a move that itself completes a triple and whose
reveal-potential estimate is maximal among all one-move-match candidates, and
rule 1 returns it for every scorer configuration. -/
theorem sortresort_C2 (st : GameState)
    (hslots : ∀ c ∈ st.containers, c.slot_count = 1 ∨ c.slot_count = 3)
    (hex : ∃ m0, CompletingMove st m0) :
    ∃ m r, findOneMoveMatch st = some m ∧ CompletingMove st m ∧
      (r, m) ∈ oneMoveCandidates st ∧ (∀ q ∈ oneMoveCandidates st, q.1 ≤ r) ∧
      ∀ last recents strat nr k,
        findBestMove st last recents strat nr k
          = some ({ m with score := 999, reason := "1-move match (always taken)" }, k) := by
  obtain ⟨m0, hmem0, hsc0, hall0⟩ := hex
  obtain ⟨hv1, hv2, hv3, hv4, hv5, hv6, hv7, hv8, hv9, hv10, hv11⟩ :=
    (mem_getAllValidMoves_iff st m0).mp hmem0
  have h3 : (st.getC m0.to_container).slot_count = 3 := by
    rcases hslots _ (getC_mem st m0.to_container hv5) with h | h
    · omega
    · exact h
  have hes := firstEmptyFrontSlot_spec _ _ hv9
  have hnone : (st.getC m0.to_container).cell m0.to_slot 0 = none := by
    have h := hes.2
    unfold ContainerState.is_front_slot_empty ContainerState.get_front_item at h
    exact Option.isNone_iff_eq_none.mp h
  have hfront := front3_values _ h3 m0.to_slot (by omega) hnone m0.item_id
    (fun s hs hne => hall0 s (by omega) hne)
  have hmemfront : m0.item_id ∈ (st.getC m0.to_container).get_front_row_items := by
    rw [hfront]
    simp
  obtain ⟨n, hnmem, hncount⟩ := (itemCounts_spec _).2 _ hmemfront
  have hn2 : n = 2 := by
    rw [hncount, hfront]
    simp [List.count_cons]
  have hcand : (oneMoveRevealScore st m0.to_container m0.from_container, m0)
      ∈ oneMoveCandidates st := by
    rw [mem_oneMoveCandidates_iff]
    refine ⟨m0.to_container, m0.to_slot, (m0.item_id, n), m0.from_container,
      m0.from_slot, hv5, hv7, by omega, hv9, by rw [hfront]; simp, hnmem,
      by omega, hv1, Ne.symm hv6, hv2, hv3, hv4, ?_⟩
    obtain ⟨fc, fs, tc, ts, it, sc, rs⟩ := m0
    simp only [] at hv10 hv11
    subst hv10
    subst hv11
    rfl
  have hnonnil : oneMoveCandidates st ≠ [] := by
    intro hnil
    rw [hnil] at hcand
    simp at hcand
  have hsome : ∃ m, findOneMoveMatch st = some m := by
    cases hf : findOneMoveMatch st with
    | none => exact absurd ((findOneMoveMatch_none_iff st).mp hf) hnonnil
    | some m => exact ⟨m, rfl⟩
  obtain ⟨m, hm⟩ := hsome
  obtain ⟨r, hrmem, hrmax⟩ := findOneMoveMatch_some_mem st m hm
  have hcomp : CompletingMove st m := by
    obtain ⟨ci, es, tc, oci, os, hci, hlock, hsc, hfe, hlen, htc, htc2,
      hoci, hne2, hlock2, hos, hfi, hpe⟩ := (mem_oneMoveCandidates_iff st (r, m)).mp hrmem
    have hm_eq : m = Move.mk' oci os ci es tc.1 := congrArg Prod.snd hpe
    have h3b : (st.getC ci).slot_count = 3 := by
      rcases hslots _ (getC_mem st ci hci) with h | h
      · omega
      · exact h
    have hesp := firstEmptyFrontSlot_spec _ _ hfe
    have hnone2 : (st.getC ci).cell es 0 = none := by
      have h := hesp.2
      unfold ContainerState.is_front_slot_empty ContainerState.get_front_item at h
      exact Option.isNone_iff_eq_none.mp h
    have hcnt := ((itemCounts_spec _).1 tc htc).2
    have hforce := front3_forces _ h3b es (by omega) hnone2 tc.1 (by omega)
    have hvalid := oneMoveCandidate_valid st (r, m) hrmem
    subst hm_eq
    refine ⟨(mem_getAllValidMoves_iff st _).mpr hvalid, by
      show 3 ≤ (st.getC ci).slot_count
      omega, ?_⟩
    intro s hs hne3
    have hs2 : s < 3 := by
      have hred : (Move.mk' oci os ci es tc.1).to_container = ci := rfl
      rw [hred] at hs
      omega
    exact hforce s hs2 hne3
  refine ⟨m, r, hm, hcomp, hrmem, hrmax, ?_⟩
  intro last recents strat nr k
  unfold findBestMove
  rw [hm]

/-- Board for the C2 witness: container 0 holds a waiting X-pair, container 1
offers the third X. -/
def c2WitnessState : GameState :=
  { containers := [
      { id := "a", slot_count := 3, max_rows := 1, is_locked := false,
        unlock_matches_required := 0, current_unlock_progress := 0,
        slots := [[some "X"], [some "X"], [none]] },
      { id := "b", slot_count := 3, max_rows := 1, is_locked := false,
        unlock_matches_required := 0, current_unlock_progress := 0,
        slots := [[some "X"], [none], [none]] }],
    move_count := 0, match_count := 0 }

theorem sortresort_C2_witness :
    (∀ c ∈ c2WitnessState.containers, c.slot_count = 1 ∨ c.slot_count = 3) ∧
    (∃ m0, CompletingMove c2WitnessState m0) ∧
    (∃ m r, findOneMoveMatch c2WitnessState = some m ∧
      CompletingMove c2WitnessState m ∧
      (r, m) ∈ oneMoveCandidates c2WitnessState ∧
      (∀ q ∈ oneMoveCandidates c2WitnessState, q.1 ≤ r) ∧
      ∀ last recents strat nr k,
        findBestMove c2WitnessState last recents strat nr k
          = some ({ m with score := 999, reason := "1-move match (always taken)" }, k)) :=
  ⟨by decide, ⟨Move.mk' 1 0 0 2 "X", by unfold CompletingMove; decide⟩,
    sortresort_C2 c2WitnessState (by decide)
      ⟨Move.mk' 1 0 0 2 "X", by unfold CompletingMove; decide⟩⟩

/-- C10: match processing does not exempt locked containers.  A locked
container with `slot_count >= 3` whose front row is a complete same-type
triple is matched: `_process_container_match` reports `True`, clears its
front row (then row-advances it), increments `match_count`, and increments
the unlock progress of every locked container including the matching one —
while the move enumerator and the one-move-match search never touch a locked
container as source or destination. -/
theorem sortresort_C10 (st : GameState) (i : Nat)
    (hlocked : (st.getC i).is_locked = true)
    (hsc : 3 ≤ (st.getC i).slot_count) (x : Item)
    (hfull : ∀ s, s < (st.getC i).slot_count →
      (st.getC i).get_front_item s = some x) :
    (processContainerMatch st i).2 = true ∧
    (processContainerMatch st i).1.match_count = st.match_count + 1 ∧
    ((processContainerMatch st i).1.getC i)
      = (unlockStep (clearFrontRow (st.getC i))).check_and_advance_rows ∧
    ((processContainerMatch st i).1.getC i).current_unlock_progress
      = (st.getC i).current_unlock_progress + 1 ∧
    (∀ m ∈ getAllValidMoves st,
      (st.getC m.from_container).is_locked = false ∧
      (st.getC m.to_container).is_locked = false) ∧
    (∀ m, findOneMoveMatch st = some m →
      (st.getC m.from_container).is_locked = false ∧
      (st.getC m.to_container).is_locked = false) := by
  have ht : (processContainerMatch st i).2 = true :=
    (pcm_true_iff st i (by omega)).mpr ⟨x, hfull⟩
  obtain ⟨hany, hded, heq⟩ := pcm_true_guards st i ht
  have hi : i < st.containers.length := getC_lt_of_slot_pos st i (by omega)
  refine ⟨ht, by rw [heq]; rfl, ?_, ?_, ?_, ?_⟩
  · rw [heq]
    show (pcmApply st i).getC i = _
    rw [pcmApply_getC, if_pos ⟨rfl, hi⟩]
  · rw [heq]
    show ((pcmApply st i).getC i).current_unlock_progress = _
    rw [pcmApply_getC, if_pos ⟨rfl, hi⟩]
    rw [(check_and_advance_fields _).2.2.1]
    rw [(unlockStep_fields _ (by
      rw [(clearFrontRow_fields _).1]
      exact hlocked)).1]
    rfl
  · intro m hm
    obtain ⟨_, hl1, _, _, _, _, hl2, _⟩ := (mem_getAllValidMoves_iff st m).mp hm
    exact ⟨hl1, hl2⟩
  · intro m hmF
    obtain ⟨r, hr, _⟩ := findOneMoveMatch_some_mem st m hmF
    obtain ⟨_, hl1, _, _, _, _, hl2, _⟩ := oneMoveCandidate_valid st (r, m) hr
    exact ⟨hl1, hl2⟩

/-- Board for the C10 witness: container 0 is locked, needs 3 matches, and
has a full Z front row; container 1 is unlocked with a front item. -/
def c10WitnessState : GameState :=
  { containers := [
      { id := "a", slot_count := 3, max_rows := 1, is_locked := true,
        unlock_matches_required := 3, current_unlock_progress := 0,
        slots := [[some "Z"], [some "Z"], [some "Z"]] },
      { id := "b", slot_count := 3, max_rows := 1, is_locked := false,
        unlock_matches_required := 0, current_unlock_progress := 0,
        slots := [[some "W"], [none], [none]] }],
    move_count := 0, match_count := 0 }

theorem sortresort_C10_witness :
    ((c10WitnessState.getC 0).is_locked = true) ∧
    (3 ≤ (c10WitnessState.getC 0).slot_count) ∧
    (∀ s, s < (c10WitnessState.getC 0).slot_count →
      (c10WitnessState.getC 0).get_front_item s = some "Z") ∧
    ((processContainerMatch c10WitnessState 0).2 = true ∧
    (processContainerMatch c10WitnessState 0).1.match_count
        = c10WitnessState.match_count + 1 ∧
    ((processContainerMatch c10WitnessState 0).1.getC 0)
      = (unlockStep (clearFrontRow (c10WitnessState.getC 0))).check_and_advance_rows ∧
    ((processContainerMatch c10WitnessState 0).1.getC 0).current_unlock_progress
      = (c10WitnessState.getC 0).current_unlock_progress + 1 ∧
    (∀ m ∈ getAllValidMoves c10WitnessState,
      (c10WitnessState.getC m.from_container).is_locked = false ∧
      (c10WitnessState.getC m.to_container).is_locked = false) ∧
    (∀ m, findOneMoveMatch c10WitnessState = some m →
      (c10WitnessState.getC m.from_container).is_locked = false ∧
      (c10WitnessState.getC m.to_container).is_locked = false)) :=
  ⟨by decide, by decide, by decide,
    sortresort_C10 c10WitnessState 0 (by decide) (by decide) "Z" (by decide)⟩

/-- C4: the move enumerator returns exactly the moves described by the
specification predicate `ValidMoveSpec`: a front-row item of an unlocked
container moved to the first empty front slot of a different unlocked
container, with only the designated representative of each `slot_count`
offered among completely empty destinations, and locked containers never
appearing on either side. -/
theorem sortresort_C4 (st : GameState) (m : Move) :
    m ∈ getAllValidMoves st ↔ ValidMoveSpec st m :=
  mem_getAllValidMoves_iff st m

/-- C3 counterexample board: a 1-slot source holding X, a 3-slot destination
holding A and B, and a locked container one match away from unlocking. -/
def c3CexState : GameState :=
  { containers := [
      { id := "src", slot_count := 1, max_rows := 1, is_locked := false,
        unlock_matches_required := 0, current_unlock_progress := 0,
        slots := [[some "X"]] },
      { id := "dst", slot_count := 3, max_rows := 1, is_locked := false,
        unlock_matches_required := 0, current_unlock_progress := 0,
        slots := [[some "A"], [some "B"], [none]] },
      { id := "lck", slot_count := 1, max_rows := 1, is_locked := true,
        unlock_matches_required := 1, current_unlock_progress := 0,
        slots := [[some "Y"]] }],
    move_count := 0, match_count := 0 }

/-- The C3 counterexample move: X from the source into the destination's
first empty front slot. -/
def c3CexMove : Move := Move.mk' 0 0 1 2 "X"

/-- Board state after simulating the C3 counterexample move. -/
def c3CexAfter : GameState :=
  { containers := [
      { id := "src", slot_count := 1, max_rows := 1, is_locked := false,
        unlock_matches_required := 0, current_unlock_progress := 0,
        slots := [[none]] },
      { id := "dst", slot_count := 3, max_rows := 1, is_locked := false,
        unlock_matches_required := 0, current_unlock_progress := 0,
        slots := [[some "A"], [some "B"], [some "X"]] },
      { id := "lck", slot_count := 1, max_rows := 1, is_locked := true,
        unlock_matches_required := 1, current_unlock_progress := 0,
        slots := [[some "Y"]] }],
    move_count := 1, match_count := 0 }

lemma c3_stats : deadlockStats c3CexState c3CexMove = (0, 1, 1) := by
  have hexec : executeMove c3CexState c3CexMove = c3CexAfter := by decide
  have hpp : processPass c3CexAfter = (c3CexAfter, 0) := by decide
  have hpam : processAllMatches (executeMove c3CexState c3CexMove) = (c3CexAfter, 0) := by
    rw [hexec, processAllMatches, hpp]
    norm_num
  unfold deadlockStats
  rw [hpam]
  decide

/-- C3 counterexample: this legal move produces no match after simulation and
reprocessing, leaves exactly 1 empty front slot across unlocked containers,
and a locked container is within 2 matches of unlocking — yet the scorer
applies no deadlock penalty at all (the claim asserts a smaller penalty
whenever the count is 1 or at most 2). -/
theorem sortresort_C3_cex :
    c3CexMove ∈ getAllValidMoves c3CexState ∧
    deadlockStats c3CexState c3CexMove = (0, 1, 1) ∧
    deadlockPenalty c3CexState c3CexMove = (0, []) := by
  refine ⟨by decide, c3_stats, ?_⟩
  simp only [deadlockPenalty, c3_stats]
  norm_num

/-- C3 (amended): for every candidate move that produces no match after
simulation and match reprocessing, the deadlock-prevention block applies:
a severe penalty (-500) when the resulting empty-front-slot count over
unlocked containers is 0 and no locked container is within 2 matches of
unlocking; a moderate penalty (-150) when it is 0 and such a container
exists; a penalty of -100 when the count is 1 and -30 when it is 2, in both
cases only when no locked container is near unlocking; and no penalty
otherwise — in particular none when the count is 1 or 2 but a near-unlocking
container exists, and none when the count is 3 or more. -/
theorem sortresort_C3 (st : GameState) (m : Move)
    (hnm : (deadlockStats st m).1 = 0) :
    ((deadlockStats st m).2.1 = 0 ∧ (deadlockStats st m).2.2 = 0 →
      deadlockPenalty st m = (-500, ["DEADLOCK: leaves 0 empty slots"])) ∧
    ((deadlockStats st m).2.1 = 0 ∧ 0 < (deadlockStats st m).2.2 →
      deadlockPenalty st m = (-150, ["tight board (unlocks coming)"])) ∧
    ((deadlockStats st m).2.1 = 1 ∧ (deadlockStats st m).2.2 = 0 →
      deadlockPenalty st m = (-100, ["near-deadlock: only 1 empty slot left"])) ∧
    ((deadlockStats st m).2.1 = 2 ∧ (deadlockStats st m).2.2 = 0 →
      deadlockPenalty st m = (-30, ["low slots remaining"])) ∧
    (1 ≤ (deadlockStats st m).2.1 ∧ 0 < (deadlockStats st m).2.2 →
      deadlockPenalty st m = (0, [])) ∧
    (3 ≤ (deadlockStats st m).2.1 → deadlockPenalty st m = (0, [])) := by
  refine ⟨?_, ?_, ?_, ?_, ?_, ?_⟩
  · rintro ⟨h1, h2⟩
    simp only [deadlockPenalty]
    rw [if_pos hnm, if_pos ⟨h1, h2⟩]
  · rintro ⟨h1, h2⟩
    simp only [deadlockPenalty]
    rw [if_pos hnm, if_neg (by omega), if_pos ⟨h1, h2⟩]
  · rintro ⟨h1, h2⟩
    simp only [deadlockPenalty]
    rw [if_pos hnm, if_neg (by omega), if_neg (by omega), if_pos ⟨h1, h2⟩]
  · rintro ⟨h1, h2⟩
    simp only [deadlockPenalty]
    rw [if_pos hnm, if_neg (by omega), if_neg (by omega), if_neg (by omega),
      if_pos ⟨by omega, h2⟩]
  · rintro ⟨h1, h2⟩
    simp only [deadlockPenalty]
    rw [if_pos hnm, if_neg (by omega), if_neg (by omega), if_neg (by omega),
      if_neg (by omega)]
  · intro h1
    simp only [deadlockPenalty]
    rw [if_pos hnm, if_neg (by omega), if_neg (by omega), if_neg (by omega),
      if_neg (by omega)]

theorem sortresort_C3_witness :
    (deadlockStats c3CexState c3CexMove).1 = 0 ∧
    (1 ≤ (deadlockStats c3CexState c3CexMove).2.1 ∧
      0 < (deadlockStats c3CexState c3CexMove).2.2) ∧
    deadlockPenalty c3CexState c3CexMove = (0, []) := by
  have hs := c3_stats
  refine ⟨by rw [hs], ⟨by rw [hs], by rw [hs]; norm_num⟩, ?_⟩
  exact (sortresort_C3 c3CexState c3CexMove (by rw [hs])).2.2.2.2.1
    ⟨by rw [hs], by rw [hs]; norm_num⟩

/-! ### Reverse-play level generator (`reverse_generator.py`)

The construction loop of `reverse_place_items` is embedded with the grid
keyed positionally by the container pool (container ids are unique in
generated pools, so the Python id-keyed dictionaries coincide with
positional indexing).  The random number generator is abstracted by an
`Oracle`: an arbitrary stream of index picks, booleans (for
`rng.random() < p` checks) and three-way scatter bands, consumed at an
incrementing draw counter.  Every behaviour of the Python `rng`
corresponds to some oracle. -/

/-- A generator-side container: static data of one pool entry.
`off_screen` abstracts the geometric test `top_edge < HUD_BAR_BOTTOM_Y`,
and `max_rows` is this container's entry of `c_rows`. -/
structure GenContainer where
  id : String
  slot_count : Nat
  max_rows : Nat
  is_locked : Bool
  unlock_matches_required : Int
  off_screen : Bool
deriving Repr, DecidableEq

instance : Inhabited GenContainer := ⟨⟨"", 0, 0, false, 0, false⟩⟩

/-- The mutable `grid` dict: per container, per slot, per row. -/
abbrev Grid := List (List (List (Option Item)))

/-- `grid[cid][s][r]` with positional container keys. -/
def cellR (g : Grid) (i s r : Nat) : Option Item :=
  ((g.getD i []).getD s []).getD r none

/-- `grid[cid][s][r] = v`. -/
def setCellR (g : Grid) (i s r : Nat) (v : Option Item) : Grid :=
  g.set i ((g.getD i []).set s (((g.getD i []).getD s []).set r v))

/-- `lock_cutoffs[cid] = total_planned - unlock_matches_required`. -/
def lockCutoff (tp : Nat) (c : GenContainer) : Int :=
  (tp : Int) - c.unlock_matches_required

/-- `is_active(c, triples_placed)`. -/
def isActive (tp : Nat) (c : GenContainer) (t : Nat) : Bool :=
  !c.is_locked || decide ((t : Int) < lockCutoff tp c)

/-- `get_active_containers(triples_placed)`, as pool indices. -/
def activeIdxs (pool : List GenContainer) (tp t : Nat) : List Nat :=
  (List.range pool.length).filter (fun i => isActive tp (pool.getD i default) t)

/-- `front_empty(cid, slots)`. -/
def frontEmptyG (g : Grid) (i slots : Nat) : Bool :=
  (List.range slots).all (fun s => (cellR g i s 0).isNone)

/-- `can_push(cid, slots, mr)`. -/
def canPushG (g : Grid) (i slots mr : Nat) : Bool :=
  decide (1 < mr) && (List.range slots).all (fun s => (cellR g i s (mr - 1)).isNone)

/-- One column after `push_deeper`: every item one row deeper, row 0 empty. -/
def pushCol (mr : Nat) (col : List (Option Item)) : List (Option Item) :=
  (none :: col).take mr

/-- `push_deeper(cid, slots, mr)`. -/
def pushDeeperG (g : Grid) (i mr : Nat) : Grid :=
  g.set i ((g.getD i []).map (pushCol mr))

/-- Number of occupied front slots of the chosen host (`host_front_items`). -/
def hostFrontItems (g : Grid) (i slots : Nat) : Nat :=
  ((List.range slots).filter (fun s => !(cellR g i s 0).isNone)).length

/-- Place the triple at the host's front row
(`for s in range(min(3, slot_count)): grid[cid][s][0] = item_id`). -/
def placeFrontG (g : Grid) (tgt n : Nat) (item : Item) : Grid :=
  (List.range n).foldl (fun g s => setCellR g tgt s 0 (some item)) g

/-- `get_scatter_dests(exclude_cid, triples_placed)`: empty front slots of
other active on-screen containers (also the `var_dests` of the variance
move, which uses the same filter). -/
def scatterDests (pool : List GenContainer) (tp : Nat) (g : Grid) (t ex : Nat) :
    List (Nat × Nat) :=
  (activeIdxs pool tp t).flatMap (fun j =>
    if (pool.getD j default).id = (pool.getD ex default).id then []
    else if (pool.getD j default).off_screen then []
    else (List.range (pool.getD j default).slot_count).filterMap (fun s =>
      if (cellR g j s 0).isNone then some (j, s) else none))

/-- Occupied front slots of active on-screen containers (the variance move's
`sources`). -/
def varSources (pool : List GenContainer) (tp : Nat) (g : Grid) (t : Nat) :
    List (Nat × Nat) :=
  (activeIdxs pool tp t).flatMap (fun j =>
    if (pool.getD j default).off_screen then []
    else (List.range (pool.getD j default).slot_count).filterMap (fun s =>
      if (cellR g j s 0).isNone then none else some (j, s)))

/-- The abstract random stream: `pick` drives `rng.choice`/`rng.shuffle`,
`coin` drives `rng.random() < p` tests, `band` drives the three-way
scatter-count roll (0 ↦ scatter 1, 1 ↦ scatter 2, 2 ↦ scatter 3). -/
structure Oracle where
  pick : Nat → Nat
  coin : Nat → Bool
  band : Nat → Fin 3

/-- `rng.shuffle`, oracle-driven: repeatedly extract the element at an
oracle-chosen index.  Any permutation is reachable. -/
def shuffleByAux (o : Nat → Nat) : Nat → Nat → List α → List α × Nat
  | 0, k, _ => ([], k)
  | _ + 1, k, [] => ([], k)
  | fuel + 1, k, a :: as =>
    let i := o k % (a :: as).length
    let r := shuffleByAux o fuel (k + 1) ((a :: as).eraseIdx i)
    ((a :: as).getD i a :: r.1, r.2)

/-- `rng.shuffle` of a whole list, returning the new draw counter. -/
def shuffleBy (o : Nat → Nat) (k : Nat) (l : List α) : List α × Nat :=
  shuffleByAux o l.length k l

/-- `rng.choice` on a nonempty list. -/
def choiceBy [Inhabited α] (o : Oracle) (k : Nat) (l : List α) : α :=
  l.getD (o.pick k % l.length) default

/-- `MIN_EMPTY_FRONT`. -/
def MIN_EMPTY_FRONT : Int := 3

/-- Mutable state of the construction loop. -/
structure GenState where
  grid : Grid
  total_triples : Nat
  total_moves : Nat
  efc : Int
  k : Nat
deriving Repr

/-- The `eligible` list of one loop iteration: active containers with at
least 3 slots whose front row is empty or whose items can be pushed one
row deeper. -/
def eligibleIdxs (pool : List GenContainer) (tp : Nat) (st : GenState) : List Nat :=
  (activeIdxs pool tp st.total_triples).filter (fun i =>
    let c := pool.getD i default
    decide (3 ≤ c.slot_count) &&
      (frontEmptyG st.grid i c.slot_count || canPushG st.grid i c.slot_count c.max_rows))

/-- The `need_push` sublist: eligible containers whose front row is occupied. -/
def needPushIdxs (pool : List GenContainer) (tp : Nat) (st : GenState) : List Nat :=
  (eligibleIdxs pool tp st).filter (fun i =>
    !frontEmptyG st.grid i (pool.getD i default).slot_count)

/-- Target selection of one loop iteration: the `eligible` / `need_push`
filters and the biased choice between them.  Returns `none` when no
container can host the triple (the loop's `break`), otherwise the chosen
pool index and the advanced draw counter. -/
def chooseTarget (pool : List GenContainer) (tp : Nat) (o : Oracle)
    (st : GenState) : Option (Nat × Nat) :=
  if (eligibleIdxs pool tp st).isEmpty then none
  else
    let usePush := !(needPushIdxs pool tp st).isEmpty &&
      (decide (st.efc ≤ MIN_EMPTY_FRONT + 3) || o.coin st.k)
    some (if usePush then choiceBy o (st.k + 1) (needPushIdxs pool tp st)
      else choiceBy o (st.k + 1) (eligibleIdxs pool tp st), st.k + 2)

/-- Host preparation and placement: push existing items deeper when the
front row is occupied, then write the triple into the front row. -/
def hostPlace (c : GenContainer) (tgt : Nat) (item : Item) (g : Grid) : Grid :=
  let g1 := if 0 < hostFrontItems g tgt c.slot_count then pushDeeperG g tgt c.max_rows else g
  placeFrontG g1 tgt (min 3 c.slot_count) item

/-- The `empty_front_count` bookkeeping of one iteration (only unlocked
hosts are counted). -/
def efcAfterHost (c : GenContainer) (g : Grid) (tgt : Nat) (efc : Int) : Int :=
  let hfi := hostFrontItems g tgt c.slot_count
  let e1 := if 0 < hfi && !c.is_locked then efc + hfi else efc
  if !c.is_locked then e1 - 3 else e1

/-- The scatter loop: for each `(slot, (dest, dest_slot))` pair, write the
item into the destination's front row and clear the host's front slot. -/
def scatterApply (tgt : Nat) (item : Item) (pairs : List (Nat × Nat × Nat))
    (g : Grid) : Grid :=
  pairs.foldl (fun g p => setCellR (setCellR g p.2.1 p.2.2 0 (some item)) tgt p.1 0 none) g

/-- The variance move (every third triple): shuffle the occupied front
slots of active on-screen containers, take the first source that has a
destination, and move its front item there. -/
def varApply (pool : List GenContainer) (tp : Nat) (o : Oracle) (tt : Nat)
    (g : Grid) (tm k : Nat) : Grid × Nat × Nat :=
  let sources := varSources pool tp g tt
  if sources.isEmpty then (g, tm, k)
  else
    let sk := shuffleBy o.pick k sources
    match sk.1.find? (fun p => !(scatterDests pool tp g tt p.1).isEmpty) with
    | none => (g, tm, sk.2)
    | some p =>
      let ds := scatterDests pool tp g tt p.1
      let d := choiceBy o sk.2 ds
      (setCellR (setCellR g d.1 d.2 0 (cellR g p.1 p.2 0)) p.1 p.2 0 none, tm + 1, sk.2 + 1)

/-- One iteration of the `reverse_place_items` loop body for `item`:
`none` is the `break` when no container is eligible. -/
def placeTripleStep (pool : List GenContainer) (tp : Nat) (o : Oracle)
    (item : Item) (st : GenState) : Option GenState :=
  match chooseTarget pool tp o st with
  | none => none
  | some tk =>
    let tgt := tk.1
    let t := st.total_triples
    let c := pool.getD tgt default
    let g2 := hostPlace c tgt item st.grid
    let efc2 := efcAfterHost c st.grid tgt st.efc
    let dests := scatterDests pool tp g2 t tgt
    if dests.isEmpty then
      some ⟨g2, t + 1, st.total_moves, efc2, tk.2⟩
    else
      let n_scatter := min ((o.band tk.2).val + 1) (min 3 dests.length)
      let d2 := shuffleBy o.pick (tk.2 + 1) dests
      let s2 := shuffleBy o.pick d2.2 (List.range (min 3 c.slot_count))
      let g3 := scatterApply tgt item ((s2.1.take n_scatter).zip d2.1) g2
      if (t + 1) % 3 = 0 then
        let v := varApply pool tp o (t + 1) g3 (st.total_moves + n_scatter) s2.2
        some ⟨v.1, t + 1, v.2.1, efc2, v.2.2⟩
      else
        some ⟨g3, t + 1, st.total_moves + n_scatter, efc2, s2.2⟩

/-- The `for item_id in all_triples` loop, stopping at the `break`. -/
def revLoop (pool : List GenContainer) (tp : Nat) (o : Oracle) :
    List Item → GenState → GenState
  | [], st => st
  | item :: rest, st =>
    match placeTripleStep pool tp o item st with
    | none => st
    | some st2 => revLoop pool tp o rest st2

/-- Items held by pool container `j` (`_ensure_no_empty_containers`'s
occupancy count over all slots and rows). -/
def cCountG (pool : List GenContainer) (g : Grid) (j : Nat) : Nat :=
  ((List.range (pool.getD j default).slot_count).flatMap (fun s =>
    (List.range (pool.getD j default).max_rows).filterMap (fun r => cellR g j s r))).length

/-- `max(pool, key=occupancy)`: the first index of maximal occupancy. -/
def fullestIdx (pool : List GenContainer) (g : Grid) : Nat :=
  (List.range pool.length).foldl
    (fun best j => if cCountG pool g best < cCountG pool g j then j else best) 0

/-- One iteration of `_ensure_no_empty_containers`: if container `i` is
empty, steal the first front-row item of the fullest container (a no-op
when the fullest container is `i` itself or has no front-row item). -/
def enecStep (pool : List GenContainer) (g : Grid) (i : Nat) : Grid :=
  if 0 < cCountG pool g i then g
  else
    let f := fullestIdx pool g
    if (pool.getD f default).id = (pool.getD i default).id then g
    else
      match (List.range (pool.getD f default).slot_count).findSome? (fun s =>
          (cellR g f s 0).map (fun it => (s, it))) with
      | none => g
      | some si => setCellR (setCellR g f si.1 0 none) i 0 0 (some si.2)

/-- `_ensure_no_empty_containers(grid, pool, rng, c_rows)`. -/
def ensureNoEmptyContainers (pool : List GenContainer) (g : Grid) : Grid :=
  (List.range pool.length).foldl (enecStep pool) g

lemma gslice_set_ne (g : Grid) (j : Nat) (X : List (List (Option Item)))
    {i : Nat} (h : i ≠ j) : (g.set j X).getD i [] = g.getD i [] := by
  rw [List.getD_eq_getElem?_getD, List.getD_eq_getElem?_getD,
    List.getElem?_set_ne (fun hh => h hh.symm)]

lemma gslice_setCellR_ne (g : Grid) (s r : Nat) (v : Option Item)
    {i j : Nat} (h : i ≠ j) : (setCellR g j s r v).getD i [] = g.getD i [] :=
  gslice_set_ne g j _ h

lemma gslice_placeFold_ne (tgt : Nat) (item : Item) {i : Nat} (h : i ≠ tgt) :
    ∀ (l : List Nat) (g : Grid),
      (l.foldl (fun g s => setCellR g tgt s 0 (some item)) g).getD i [] = g.getD i []
  | [], _ => rfl
  | s :: rest, g => by
    rw [List.foldl_cons, gslice_placeFold_ne tgt item h rest _,
      gslice_setCellR_ne g s 0 (some item) h]

lemma gslice_hostPlace_ne (c : GenContainer) (tgt : Nat) (item : Item)
    (g : Grid) {i : Nat} (h : i ≠ tgt) :
    (hostPlace c tgt item g).getD i [] = g.getD i [] := by
  simp only [hostPlace, placeFrontG]
  rw [gslice_placeFold_ne tgt item h]
  split
  · simp only [pushDeeperG]
    exact gslice_set_ne g tgt _ h
  · rfl

lemma gslice_scatterApply_ne (tgt : Nat) (item : Item) {i : Nat} (h : i ≠ tgt) :
    ∀ (pairs : List (Nat × Nat × Nat)) (g : Grid), (∀ p ∈ pairs, p.2.1 ≠ i) →
      (scatterApply tgt item pairs g).getD i [] = g.getD i [] := by
  intro pairs
  induction pairs with
  | nil => intro g _; rfl
  | cons p rest ih =>
    intro g hall
    have hp : p.2.1 ≠ i := hall p (List.mem_cons_self p rest)
    have ih2 := ih (setCellR (setCellR g p.2.1 p.2.2 0 (some item)) tgt p.1 0 none)
      (fun q hq => hall q (List.mem_cons_of_mem _ hq))
    simp only [scatterApply, List.foldl_cons] at ih2 ⊢
    rw [ih2, gslice_setCellR_ne _ _ _ _ h, gslice_setCellR_ne _ _ _ _ (Ne.symm hp)]

lemma choiceBy_mem [Inhabited α] (o : Oracle) (k : Nat) (l : List α)
    (h : l ≠ []) : choiceBy o k l ∈ l := by
  unfold choiceBy
  have hlt : o.pick k % l.length < l.length := Nat.mod_lt _ (List.length_pos.mpr h)
  rw [List.getD_eq_getElem?_getD, List.getElem?_eq_getElem hlt, Option.getD_some]
  exact List.getElem_mem hlt

lemma shuffleByAux_subset (o : Nat → Nat) :
    ∀ (fuel k : Nat) (l : List α) (x : α), x ∈ (shuffleByAux o fuel k l).1 → x ∈ l := by
  intro fuel
  induction fuel with
  | zero =>
    intro k l x hx
    simp only [shuffleByAux] at hx
    exact absurd hx (List.not_mem_nil x)
  | succ n ih =>
    intro k l x hx
    cases l with
    | nil =>
      simp only [shuffleByAux] at hx
      exact absurd hx (List.not_mem_nil x)
    | cons a as =>
      simp only [shuffleByAux] at hx
      rcases List.mem_cons.mp hx with h1 | h2
      · have hlt : o k % (a :: as).length < (a :: as).length :=
          Nat.mod_lt _ (by simp)
        rw [h1, List.getD_eq_getElem?_getD, List.getElem?_eq_getElem hlt,
          Option.getD_some]
        exact List.getElem_mem hlt
      · exact List.eraseIdx_subset _ _ (ih (k + 1) _ x h2)

lemma shuffleBy_subset (o : Nat → Nat) (k : Nat) (l : List α) (x : α)
    (h : x ∈ (shuffleBy o k l).1) : x ∈ l :=
  shuffleByAux_subset o l.length k l x h

lemma inactive_not_mem (pool : List GenContainer) (tp t i : Nat)
    (hlock : (pool.getD i default).is_locked = true)
    (hcut : lockCutoff tp (pool.getD i default) ≤ (t : Int)) :
    i ∉ activeIdxs pool tp t := by
  intro hmem
  have hact := (List.mem_filter.mp hmem).2
  simp only [isActive, hlock, Bool.not_true, Bool.false_or, decide_eq_true_eq] at hact
  omega

lemma scatterDests_fst (pool : List GenContainer) (tp : Nat) (g : Grid)
    (t ex : Nat) (p : Nat × Nat) (hp : p ∈ scatterDests pool tp g t ex) :
    p.1 ∈ activeIdxs pool tp t := by
  unfold scatterDests at hp
  rw [List.mem_flatMap] at hp
  obtain ⟨j, hj, hpj⟩ := hp
  split at hpj
  · exact absurd hpj (List.not_mem_nil p)
  · split at hpj
    · exact absurd hpj (List.not_mem_nil p)
    · rw [List.mem_filterMap] at hpj
      obtain ⟨s, _, hs⟩ := hpj
      split at hs
      · injection hs with hs
        rw [← hs]
        exact hj
      · exact absurd hs (by simp)

lemma varSources_fst (pool : List GenContainer) (tp : Nat) (g : Grid)
    (t : Nat) (p : Nat × Nat) (hp : p ∈ varSources pool tp g t) :
    p.1 ∈ activeIdxs pool tp t := by
  unfold varSources at hp
  rw [List.mem_flatMap] at hp
  obtain ⟨j, hj, hpj⟩ := hp
  split at hpj
  · exact absurd hpj (List.not_mem_nil p)
  · rw [List.mem_filterMap] at hpj
    obtain ⟨s, _, hs⟩ := hpj
    split at hs
    · exact absurd hs (by simp)
    · injection hs with hs
      rw [← hs]
      exact hj

lemma chooseTarget_mem (pool : List GenContainer) (tp : Nat) (o : Oracle)
    (st : GenState) (tgt k : Nat)
    (h : chooseTarget pool tp o st = some (tgt, k)) :
    tgt ∈ activeIdxs pool tp st.total_triples := by
  unfold chooseTarget at h
  split at h
  · exact absurd h (by simp)
  · rename_i hne
    simp only [] at h
    rw [Option.some.injEq, Prod.mk.injEq] at h
    obtain ⟨h1, -⟩ := h
    have hel : tgt ∈ eligibleIdxs pool tp st := by
      split at h1
      · rename_i hup
        have hnp : needPushIdxs pool tp st ≠ [] := by
          rw [Bool.and_eq_true] at hup
          have hu := hup.1
          intro hh
          rw [hh] at hu
          simp at hu
        rw [← h1]
        exact List.mem_of_mem_filter (choiceBy_mem o _ _ hnp)
      · have hel0 : eligibleIdxs pool tp st ≠ [] := by
          intro hh
          rw [hh] at hne
          exact hne rfl
        rw [← h1]
        exact choiceBy_mem o _ _ hel0
    exact List.mem_of_mem_filter hel

lemma gslice_varApply (pool : List GenContainer) (tp : Nat) (o : Oracle)
    (tt : Nat) (g : Grid) (tm k : Nat) {i : Nat}
    (hni : i ∉ activeIdxs pool tp tt) :
    (varApply pool tp o tt g tm k).1.getD i [] = g.getD i [] := by
  unfold varApply
  simp only []
  split
  · rfl
  · cases hm : (shuffleBy o.pick k (varSources pool tp g tt)).1.find?
        (fun p => !(scatterDests pool tp g tt p.1).isEmpty) with
    | none => rfl
    | some p =>
      simp only []
      have hpm : p ∈ varSources pool tp g tt :=
        shuffleBy_subset _ _ _ _ (List.mem_of_find?_eq_some hm)
      have hp1 : p.1 ∈ activeIdxs pool tp tt := varSources_fst _ _ _ _ _ hpm
      have hds : scatterDests pool tp g tt p.1 ≠ [] := by
        have hf := List.find?_some hm
        intro hh
        rw [hh] at hf
        simp at hf
      have hd1 : (choiceBy o (shuffleBy o.pick k (varSources pool tp g tt)).2
          (scatterDests pool tp g tt p.1)).1 ∈ activeIdxs pool tp tt :=
        scatterDests_fst _ _ _ _ _ _ (choiceBy_mem o _ _ hds)
      rw [gslice_setCellR_ne _ _ _ _ (fun he => hni (by rw [he]; exact hp1)),
        gslice_setCellR_ne _ _ _ _ (fun he => hni (by rw [he]; exact hd1))]

lemma placeTripleStep_inactive (pool : List GenContainer) (tp : Nat)
    (o : Oracle) (item : Item) (st st2 : GenState) (i : Nat)
    (hstep : placeTripleStep pool tp o item st = some st2)
    (hlock : (pool.getD i default).is_locked = true)
    (hcut : lockCutoff tp (pool.getD i default) ≤ (st.total_triples : Int)) :
    st2.grid.getD i [] = st.grid.getD i [] ∧
      st2.total_triples = st.total_triples + 1 := by
  have hni : i ∉ activeIdxs pool tp st.total_triples :=
    inactive_not_mem pool tp st.total_triples i hlock hcut
  have hni2 : i ∉ activeIdxs pool tp (st.total_triples + 1) :=
    inactive_not_mem pool tp (st.total_triples + 1) i hlock
      (le_trans hcut (by exact_mod_cast Nat.le_succ st.total_triples))
  unfold placeTripleStep at hstep
  cases hct : chooseTarget pool tp o st with
  | none =>
    rw [hct] at hstep
    exact absurd hstep (by simp)
  | some tk =>
    rw [hct] at hstep
    have htgt : tk.1 ∈ activeIdxs pool tp st.total_triples :=
      chooseTarget_mem pool tp o st tk.1 tk.2 hct
    have hti : i ≠ tk.1 := fun he => hni (by rw [he]; exact htgt)
    simp only [] at hstep
    split at hstep
    · rw [Option.some.injEq] at hstep
      subst hstep
      exact ⟨gslice_hostPlace_ne _ _ _ _ hti, rfl⟩
    · have hpairs : ∀ p ∈ ((shuffleBy o.pick
          (shuffleBy o.pick (tk.2 + 1)
            (scatterDests pool tp (hostPlace (pool.getD tk.1 default) tk.1 item st.grid)
              st.total_triples tk.1)).2
          (List.range (min 3 (pool.getD tk.1 default).slot_count))).1.take
            (min ((o.band tk.2).val + 1)
              (min 3 (scatterDests pool tp
                (hostPlace (pool.getD tk.1 default) tk.1 item st.grid)
                st.total_triples tk.1).length))).zip
          (shuffleBy o.pick (tk.2 + 1)
            (scatterDests pool tp (hostPlace (pool.getD tk.1 default) tk.1 item st.grid)
              st.total_triples tk.1)).1,
          (p : Nat × Nat × Nat).2.1 ≠ i := by
        intro p hp
        obtain ⟨-, hp2⟩ := List.of_mem_zip (show (p.1, p.2) ∈ _ from hp)
        have hp4 := scatterDests_fst _ _ _ _ _ _ (shuffleBy_subset _ _ _ _ hp2)
        exact fun he => hni (by rw [← he]; exact hp4)
      split at hstep
      · rw [Option.some.injEq] at hstep
        subst hstep
        refine ⟨?_, rfl⟩
        refine Eq.trans (gslice_varApply pool tp o _ _ _ _ hni2) ?_
        exact Eq.trans (gslice_scatterApply_ne tk.1 item hti _ _ hpairs)
          (gslice_hostPlace_ne _ _ _ _ hti)
      · rw [Option.some.injEq] at hstep
        subst hstep
        refine ⟨?_, rfl⟩
        exact Eq.trans (gslice_scatterApply_ne tk.1 item hti _ _ hpairs)
          (gslice_hostPlace_ne _ _ _ _ hti)

/-- C8: the lock-cutoff invariant of reverse-play construction.  For any
container pool, any planned triple total `tp`, and any random oracle, once
the number of placed triples has reached a locked container's lock cutoff
`tp - unlock_matches_required` — i.e. during the final
`unlock_matches_required` triples of the construction order — the rest of
the construction loop never touches that container: no triple is hosted by
it, no item is scattered to it, and no variance move takes an item out of
it, so its grid slice is exactly what it was at the cutoff. -/
theorem sortresort_C8 (pool : List GenContainer) (tp : Nat) (o : Oracle)
    (items : List Item) (st : GenState) (i : Nat)
    (hlock : (pool.getD i default).is_locked = true)
    (hcut : lockCutoff tp (pool.getD i default) ≤ (st.total_triples : Int)) :
    (revLoop pool tp o items st).grid.getD i [] = st.grid.getD i [] := by
  revert hcut
  induction items generalizing st with
  | nil => intro _; rfl
  | cons item rest ih =>
    intro hcut
    cases hstep : placeTripleStep pool tp o item st with
    | none => simp only [revLoop, hstep]
    | some st2 =>
      have h := placeTripleStep_inactive pool tp o item st st2 i hstep hlock hcut
      simp only [revLoop, hstep]
      rw [ih st2 (by rw [h.2]; push_cast; omega)]
      exact h.1

/-- Pool for the C8 witness: an unlocked 3-slot host and a locked container
requiring 5 matches, so its lock cutoff 2 - 5 is already reached at the
start of a 2-triple construction. -/
def c8Pool : List GenContainer :=
  [⟨"a", 3, 2, false, 0, false⟩, ⟨"b", 3, 1, true, 5, false⟩]

/-- A concrete random oracle for the C8 witness. -/
def c8Oracle : Oracle := ⟨fun _ => 0, fun _ => false, fun _ => 0⟩

/-- Start state for the C8 witness: empty host, pre-filled locked container. -/
def c8Start : GenState :=
  ⟨[[[none, none], [none, none], [none, none]],
    [[some "Y"], [some "Y"], [some "Y"]]], 0, 0, 6, 0⟩

theorem sortresort_C8_witness :
    (c8Pool.getD 1 default).is_locked = true ∧
    lockCutoff 2 (c8Pool.getD 1 default) ≤ (c8Start.total_triples : Int) ∧
    (revLoop c8Pool 2 c8Oracle ["A", "B"] c8Start).grid.getD 1 [] =
      c8Start.grid.getD 1 [] :=
  ⟨by decide, by decide,
    sortresort_C8 c8Pool 2 c8Oracle ["A", "B"] c8Start 1 (by decide) (by decide)⟩

/-- Pool for the C9 failing input: two unlocked 3-slot containers, the
first two rows deep, the second a single row. -/
def c9Pool : List GenContainer :=
  [⟨"c0", 3, 2, false, 0, false⟩, ⟨"c1", 3, 1, false, 0, false⟩]

/-- Grid for the C9 failing input: container `c0` holds three items, all in
its back row (its front row is empty); container `c1` is completely
empty. -/
def c9Grid : Grid :=
  [[[none, some "A"], [none, some "B"], [none, some "A"]],
   [[none], [none], [none]]]

/-- C9: the repair pass `_ensure_no_empty_containers` does NOT guarantee
that every container holds an item.  On this input container `c1` is empty
and the fullest other container `c0` holds its items only in back rows;
the pass only donates front-row (`grid[...][s][0]`) items, finds none, and
returns the grid unchanged, leaving `c1` empty on the emitted board. -/
theorem sortresort_C9 :
    ensureNoEmptyContainers c9Pool c9Grid = c9Grid ∧
    cCountG c9Pool c9Grid 1 = 0 ∧
    0 < cCountG c9Pool c9Grid 0 := by
  decide

/-- The C6 test board: a single 3-slot, 2-row container with front row
`[A,A,A]` and back row `[B,B,B]`. -/
def cascadeContainer : ContainerState :=
  { id := "c1", slot_count := 3, max_rows := 2, is_locked := false,
    unlock_matches_required := 0, current_unlock_progress := 0,
    slots := [[some "A", some "B"], [some "A", some "B"], [some "A", some "B"]] }

/-- The C6 test state. -/
def cascadeState : GameState :=
  { containers := [cascadeContainer], move_count := 0, match_count := 0 }


end SortResort

namespace SortResort

/-- Intermediate state of the C6 cascade: the A-triple is cleared and the
B-row has advanced to the front. -/
def cascadeMid : GameState :=
  { containers := [{ cascadeContainer with
      slots := [[some "B", none], [some "B", none], [some "B", none]] }],
    move_count := 0, match_count := 1 }

/-- Final state of the C6 cascade: both triples cleared. -/
def cascadeEnd : GameState :=
  { containers := [{ cascadeContainer with
      slots := [[none, none], [none, none], [none, none]] }],
    move_count := 0, match_count := 2 }

lemma cascade_pass1 : processPass cascadeState = (cascadeMid, 1) := by decide

lemma cascade_pass2 : processPass cascadeMid = (cascadeEnd, 1) := by decide

lemma cascade_pass3 : processPass cascadeEnd = (cascadeEnd, 0) := by decide

lemma cascade_eval : processAllMatches cascadeState = (cascadeEnd, 2) := by
  rw [processAllMatches, cascade_pass1]
  norm_num
  rw [processAllMatches, cascade_pass2]
  norm_num
  rw [processAllMatches, cascade_pass3]
  norm_num

/-- C6: on a board consisting of one 3-slot, 2-row container with front row
`[A,A,A]` and back row `[B,B,B]` (`A ≠ B`), a single call to
`_process_all_matches` returns a match count of 2 (the A triple, then after
the row advance the B triple), leaves every cell of the container empty, and
leaves `move_count` unchanged. -/
theorem sortresort_C6 :
    (processAllMatches cascadeState).2 = 2 ∧
    (∀ s r, ((processAllMatches cascadeState).1.getC 0).cell s r = none) ∧
    (processAllMatches cascadeState).1.move_count = cascadeState.move_count := by
  refine ⟨by rw [cascade_eval], ?_, by rw [cascade_eval]; rfl⟩
  intro s r
  rw [cascade_eval]
  show ((([[none, none], [none, none], [none, none]] :
      List (List (Option Item))).getD s []).getD r none) = none
  have hrow : ∀ r' : Nat, ([none, none] : List (Option Item)).getD r' none = none := by
    intro r'
    rcases r' with _ | _ | r' <;> rfl
  rcases s with _ | _ | _ | s
  · exact hrow r
  · exact hrow r
  · exact hrow r
  · rfl

end SortResort
